import Mathlib

/-!
Verification development for the metaboss_lib instruction-assembly library.

The Rust sources under `src/` are shallowly embedded below.  On-chain
addresses (`Pubkey`) are modelled as a free algebra over the program-derived
address (PDA) constructors: `find_program_address` is a collision-free hash,
so two derivations coincide exactly when their seed tuples coincide; this is
reflected by constructor injectivity.  Base-58 parsing of key strings is
abstracted: a string is accepted when it is nonempty and drawn from the
base-58 alphabet (the 32-byte length constraint of real keys is not
re-checked), and rendering a parsed key returns the same string, matching
the canonicity of base-58 on valid encodings.  Network access (RPC client,
decoder collaborator, submission collaborator) is modelled by oracle
functions carried in an `RpcClient` record; the submission oracle is indexed
by the attempt number so repeated invocations of the same closure under the
retry combinator can differ, as the network does.
-/

deriving instance DecidableEq for Except

namespace Metaboss

/-- Character sequences stand in for Rust `String` values; all string
processing in the embedding is done on `List Char`. -/
abbrev Str := List Char

/-- Addresses.  `named` is an externally supplied key (base key or program
id, identified by its base-58 text); the other constructors are the PDA
derivations used by the library, with the seed tuples recorded in the
constructor arguments.  `derive_metadata_pda`, `derive_edition_pda` (both in
src/derive/mod.rs) and the associated-token-account derivation map onto
these constructors. -/
inductive Pubkey where
  | named (s : Str)
  | metadataPda (mint : Pubkey)
  | editionPda (mint : Pubkey)
  | tokenRecordPda (mint token : Pubkey)
  | metadataDelegateRecordPda (mint : Pubkey) (roleSeed : Str)
      (updateAuthority : Pubkey) (delegate : Pubkey)
  | associatedTokenAccount (owner mint : Pubkey)
  deriving DecidableEq, Repr

/-- The fixed token-metadata program id (constants.rs METAPLEX_PROGRAM_ID,
also `mpl_token_metadata::ID`). -/
def METAPLEX_PROGRAM_ID : Pubkey :=
  .named "metaqbxxUerdq28cj1RbAWkYQm3ybzjb6a8bt518x1s".data

/-- constants.rs SPL_TOKEN_PROGRAM_ID. -/
def SPL_TOKEN_PROGRAM_ID : Pubkey :=
  .named "TokenkegQfeZyiNwAJbNbGKPFXCWuBvf9Ss623VQ5DA".data

/-- The token auth-rules program id (`mpl_token_auth_rules::ID`,
constants.rs AUTH_RULES_PROGRAM_ID). -/
def AUTH_RULES_PROGRAM_ID : Pubkey :=
  .named "auth9SigNpDKz4sJJ1DfCTuZrZNSAgh9sFD3rboVmgg".data

/-- The system program id. -/
def SYSTEM_PROGRAM_ID : Pubkey :=
  .named "11111111111111111111111111111111".data

/-- The instructions sysvar id. -/
def SYSVAR_INSTRUCTIONS_ID : Pubkey :=
  .named "Sysvar1nstructions1111111111111111111111111".data

/-- The SPL associated-token-account program id. -/
def SPL_ATA_PROGRAM_ID : Pubkey :=
  .named "ATokenGPvbdGVxr1b2hvZbsiqW5xWH25efTNsLJA8knL".data

/-- The compute-budget program id. -/
def COMPUTE_BUDGET_PROGRAM_ID : Pubkey :=
  .named "ComputeBudget111111111111111111111111111111".data

/-- src/derive/mod.rs derive_metadata_pda: seeds = ("metadata", program-id,
mint). -/
def derive_metadata_pda (mint : Pubkey) : Pubkey := .metadataPda mint

/-- src/derive/mod.rs derive_edition_pda: seeds = ("metadata", program-id,
mint, "edition"). -/
def derive_edition_pda (mint : Pubkey) : Pubkey := .editionPda mint

/-- Modelled from the spec: `derive_token_record_pda` is imported by
src/data.rs from `crate::derive` but its definition is not among the source
files; per the spec (section 4.1) `token_record_pda(mint, token_account)`
has seeds = ("metadata", program-id, mint, "token_record", token_account).
`TokenRecord::find_pda` of the external metadata crate performs the same
derivation. -/
def derive_token_record_pda (mint token : Pubkey) : Pubkey :=
  .tokenRecordPda mint token

/-- `MetadataDelegateRecord::find_pda` of the external metadata crate:
seeds include the per-role discriminator string, the update authority and
the delegate. -/
def metadata_delegate_record_pda (mint : Pubkey) (roleSeed : Str)
    (updateAuthority delegate : Pubkey) : Pubkey :=
  .metadataDelegateRecordPda mint roleSeed updateAuthority delegate

/-- `spl_associated_token_account::get_associated_token_address`. -/
def get_associated_token_address (owner mint : Pubkey) : Pubkey :=
  .associatedTokenAccount owner mint

/-- mpl_token_metadata TokenStandard. -/
inductive TokenStandard where
  | NonFungible
  | FungibleAsset
  | Fungible
  | NonFungibleEdition
  | ProgrammableNonFungible
  deriving DecidableEq, Repr

/-- mpl_token_metadata ProgrammableConfig. -/
inductive ProgrammableConfig where
  | V1 (rule_set : Option Pubkey)
  deriving DecidableEq, Repr

/-- mpl_token_metadata Collection reference ({parent mint, verified}). -/
structure Collection where
  verified : Bool
  key : Pubkey
  deriving DecidableEq, Repr

/-- The read-only metadata projection consumed by the assemblers (spec
section 3): the full on-chain record carries more fields, but only these
are read by the code under verification. -/
structure Metadata where
  update_authority : Pubkey
  token_standard : Option TokenStandard
  programmable_config : Option ProgrammableConfig
  collection : Option Collection
  deriving DecidableEq, Repr

/-- Error kinds.  anyhow erases Rust error types; the distinct failure
sites of the embedded code are kept distinguishable by constructor, with
each `bail!` site getting its own constructor. -/
inductive MbError where
  /-- nft.rs: "Mint account {} had more than one token account with 1 token" -/
  | ambiguousHolder (mint : Pubkey)
  /-- nft.rs: "Mint account {} had zero token accounts with 1 token" -/
  | noHolderFound (mint : Pubkey)
  /-- mint/mod.rs: "Decimals must be less than or equal to 9" -/
  | decimalsTooHigh
  /-- mint/mod.rs: "Non-fungible assets must have an amount of 1" -/
  | nonFungibleAmountNotOne
  /-- verify/creator.rs and unverify/creator.rs:
  "Only NFTs or pNFTs can have creators be verified" -/
  | onlyNonFungibleCreators
  /-- unverify/collection.rs: "This feature only supports NFTs or pNFTs verified" -/
  | unverifyOnlyNonFungible
  /-- decode errors: DecodeError::PubkeyParseFailed -/
  | pubkeyParse (s : Str)
  /-- decode errors: metadata fetch / deserialization failures -/
  | decodeFailed (msg : Str)
  /-- transport errors from the chain-access collaborator -/
  | transport (msg : Str)
  /-- builder build() missing-field errors (mapped through anyhow) -/
  | builderFailed (msg : Str)
  /-- check/mod.rs: "Invalid metadata key" -/
  | invalidMetadataKey
  /-- value parse failures (u8/u16/u64/bool FromStr) propagated by `?` -/
  | valueParseFailed
  /-- a Rust panic (failed unwrap / out-of-bounds index) -/
  | panicked
  deriving DecidableEq, Repr

/-- Account metas of an emitted instruction. -/
structure AccountMeta where
  pubkey : Pubkey
  is_signer : Bool
  is_writable : Bool
  deriving DecidableEq, Repr

/-- `AccountMeta::new(k, signer)`: writable meta. -/
def AccountMeta.new (pubkey : Pubkey) (is_signer : Bool) : AccountMeta :=
  ⟨pubkey, is_signer, true⟩

/-- `AccountMeta::new_readonly(k, signer)`. -/
def AccountMeta.new_readonly (pubkey : Pubkey) (is_signer : Bool) : AccountMeta :=
  ⟨pubkey, is_signer, false⟩

/-- mpl_token_metadata Creator (address, verified flag, share). -/
structure Creator where
  address : Pubkey
  verified : Bool
  share : Nat
  deriving DecidableEq, Repr

/-- `AuthorizationData` carries an opaque rule-set payload map; none of the
embedded code inspects it, so it is modelled as an opaque token. -/
structure AuthorizationData where
  payload : Nat
  deriving DecidableEq, Repr

/-- mpl_token_metadata Data (the updatable metadata data block). -/
structure MdData where
  name : Str
  symbol : Str
  uri : Str
  seller_fee_basis_points : Nat
  creators : Option (List Creator)
  deriving DecidableEq, Repr

/-- mpl_token_metadata CollectionToggle: three-way toggle (spec section 9). -/
inductive CollectionToggle where
  | none
  | clear
  | set (collection : Collection)
  deriving DecidableEq, Repr

/-- mpl_token_metadata CollectionDetails. -/
inductive CollectionDetails where
  | V1 (size : Nat)
  deriving DecidableEq, Repr

/-- mpl_token_metadata CollectionDetailsToggle. -/
inductive CollectionDetailsToggle where
  | none
  | clear
  | set (details : CollectionDetails)
  deriving DecidableEq, Repr

/-- mpl_token_metadata Uses (use-count bookkeeping; opaque to the claims). -/
structure Uses where
  use_method : Nat
  remaining : Nat
  total : Nat
  deriving DecidableEq, Repr

/-- mpl_token_metadata UsesToggle. -/
inductive UsesToggle where
  | none
  | clear
  | set (uses : Uses)
  deriving DecidableEq, Repr

/-- mpl_token_metadata RuleSetToggle. -/
inductive RuleSetToggle where
  | none
  | clear
  | set (rule_set : Pubkey)
  deriving DecidableEq, Repr

/-- src/update/mod.rs V1UpdateArgs (wrapper of UpdateV1InstructionArgs with
a Default implementation). -/
structure V1UpdateArgs where
  new_update_authority : Option Pubkey := Option.none
  data : Option MdData := Option.none
  primary_sale_happened : Option Bool := Option.none
  is_mutable : Option Bool := Option.none
  collection : CollectionToggle := .none
  collection_details : CollectionDetailsToggle := .none
  uses : UsesToggle := .none
  rule_set : RuleSetToggle := .none
  authorization_data : Option AuthorizationData := Option.none
  deriving DecidableEq, Repr

/-- mpl_token_metadata types::DelegateArgs: the sub-variant discriminator
of the delegate operation, with the per-variant payloads. -/
inductive DelegateArgs where
  | CollectionV1 (authorization_data : Option AuthorizationData)
  | SaleV1 (amount : Nat) (authorization_data : Option AuthorizationData)
  | TransferV1 (amount : Nat) (authorization_data : Option AuthorizationData)
  | DataV1 (authorization_data : Option AuthorizationData)
  | UtilityV1 (amount : Nat) (authorization_data : Option AuthorizationData)
  | StakingV1 (amount : Nat) (authorization_data : Option AuthorizationData)
  | StandardV1 (amount : Nat)
  | LockedTransferV1 (amount : Nat) (locked_address : Pubkey)
      (authorization_data : Option AuthorizationData)
  | ProgrammableConfigV1 (authorization_data : Option AuthorizationData)
  | AuthorityItemV1 (authorization_data : Option AuthorizationData)
  | DataItemV1 (authorization_data : Option AuthorizationData)
  | CollectionItemV1 (authorization_data : Option AuthorizationData)
  | ProgrammableConfigItemV1 (authorization_data : Option AuthorizationData)
  | PrintDelegateV1 (authorization_data : Option AuthorizationData)
  deriving DecidableEq, Repr

/-- mpl_token_metadata PrintSupply. -/
inductive PrintSupply where
  | Zero
  | Limited (n : Nat)
  | Unlimited
  deriving DecidableEq, Repr

/-- Argument block of the CreateV1 instruction as assembled by
mint_asset_v1 through CreateV1Builder (the fields threaded into the
instruction data). -/
structure CreateV1Args where
  name : Str
  symbol : Str
  uri : Str
  seller_fee_basis_points : Nat
  primary_sale_happened : Bool
  is_mutable : Bool
  token_standard : TokenStandard
  creators : Option (List Creator)
  collection : Option Collection
  uses : Option Uses
  collection_details : Option CollectionDetails
  rule_set : Option Pubkey
  decimals : Option Nat
  print_supply : Option PrintSupply
  deriving DecidableEq, Repr

/-- Instruction payload data.  The byte-level borsh encodings of the
instruction arguments are abstracted as tagged values (the encodings are
injective, so this loses nothing the claims depend on); the compute-budget
payloads keep their numeric arguments visible since a claim inspects them. -/
inductive InstrData where
  | setComputeUnitLimit (units : Nat)
  | setComputeUnitPrice (microLamports : Nat)
  | transferV1 (amount : Nat) (authorization_data : Option AuthorizationData)
  | updateV1 (args : V1UpdateArgs)
  | delegateV1 (args : DelegateArgs)
  | createV1 (args : CreateV1Args)
  | mintV1 (amount : Nat) (authorization_data : Option AuthorizationData)
  | verifyCollectionV1
  | verifyCreatorV1
  | unverifyCollectionV1
  | unverifyCreatorV1
  deriving DecidableEq, Repr

/-- An emitted instruction (spec section 4.5.7): program id, ordered
account-meta list, data payload. -/
structure Instruction where
  program_id : Pubkey
  accounts : List AccountMeta
  data : InstrData
  deriving DecidableEq, Repr

/-- Decimal digit test, as in Rust integer FromStr. -/
def isDigitChar (c : Char) : Bool := '0' ≤ c && c ≤ '9'

/-- Numeric value of a digit character. -/
def charVal (c : Char) : Nat := c.toNat - 48

/-- Rust integer FromStr accepts one optional leading plus sign. -/
def stripPlusSign : Str → Str
  | '+' :: rest => rest
  | s => s

/-- Digit-string to number: `none` unless the string is a nonempty run of
decimal digits. -/
def parseNatCore (s : Str) : Option Nat :=
  if s ≠ [] ∧ s.all isDigitChar then
    some (s.foldl (fun acc c => acc * 10 + charVal c) 0)
  else
    none

/-- Rust `str::parse` for an unsigned integer type whose largest value is
`bound`: optional leading plus, decimal digits, overflow rejected. -/
def parseUInt (bound : Nat) (s : Str) : Option Nat :=
  match parseNatCore (stripPlusSign s) with
  | some n => if n ≤ bound then some n else none
  | none => none

/-- `str::parse::<u64>`. -/
def parseU64 (s : Str) : Option Nat := parseUInt (2 ^ 64 - 1) s

/-- `str::parse::<u16>`. -/
def parseU16 (s : Str) : Option Nat := parseUInt (2 ^ 16 - 1) s

/-- `str::parse::<u8>`. -/
def parseU8 (s : Str) : Option Nat := parseUInt (2 ^ 8 - 1) s

/-- `str::parse::<bool>`: exactly "true" or "false". -/
def parseBool (s : Str) : Option Bool :=
  if s = "true".data then some true
  else if s = "false".data then some false
  else none

/-- The base-58 alphabet: alphanumeric without '0', 'O', 'I', 'l'. -/
def isBase58Char (c : Char) : Bool :=
  c.isAlphanum && !(c = '0' || c = 'O' || c = 'I' || c = 'l')

/-- Abstraction of base-58 pubkey-string validity: nonempty and drawn from
the base-58 alphabet (the 32-byte decoded-length constraint of real keys is
not re-checked). -/
def isBase58Str (s : Str) : Bool := !s.isEmpty && s.all isBase58Char

/-- `Pubkey::from_str` / the `ToPubkey` impls for strings
(src/decode/mod.rs): a valid base-58 string names a key; rendering that key
returns the same string (base-58 is canonical on valid encodings). -/
def strToPubkey (s : Str) : Except MbError Pubkey :=
  if isBase58Str s then .ok (.named s) else .error (.pubkeyParse s)

/-- One entry of the "getTokenLargestAccounts" RPC response
(src/nft.rs TokenAccount).  The f32 `uiAmount` field is not modelled
(floating point; the code never reads it). -/
structure TokenAccount where
  address : Str
  amount : Str
  decimals : Nat
  ui_amount_string : Str
  deriving DecidableEq, Repr

/-- A transaction signature returned by the submission collaborator. -/
structure Signature where
  sigBytes : Str
  deriving DecidableEq, Repr

/-- A signed transaction handed to the submission collaborator
(`Transaction::new_signed_with_payer`). -/
structure Transaction where
  instructions : List Instruction
  fee_payer : Pubkey
  signers : List Pubkey
  recent_blockhash : Nat
  deriving DecidableEq, Repr

/-- The chain-access, decoder and submission collaborators, as oracles
(spec section 1 treats them as external).  `decodeMetadataAt` is the
composite of `get_account_data` and `Metadata::deserialize`
(src/decode/mod.rs decode_metadata).  `sendAndConfirmAttempt tx i` is the
outcome of the i-th invocation of `send_and_confirm_transaction` on `tx`
(attempt-indexed because the network may answer differently each time).
`freshKeypair` models the entropy drawn by `Keypair::new()`. -/
structure RpcClient where
  decodeMetadataAt : Pubkey → Except MbError Metadata
  tokenLargestAccounts : Pubkey → Except MbError (List TokenAccount)
  latestBlockhash : Except MbError Nat
  sendAndConfirmAttempt : Transaction → Nat → Except MbError Signature
  freshKeypair : Pubkey

/-- src/nft.rs get_nft_token_account: query the largest token accounts of
the mint, keep those whose balance string parses to exactly 1, and require
exactly one such candidate.  The `unwrap` on the balance parse panics on an
unparseable amount; the panic is modelled as `MbError.panicked`. -/
def get_nft_token_account (client : RpcClient) (mint : Pubkey) :
    Except MbError Pubkey := do
  let value ← client.tokenLargestAccounts mint
  if value.any (fun account => (parseU64 account.amount).isNone) then
    .error .panicked
  else
    let token_accounts := value.filter (fun account => parseU64 account.amount == some 1)
    if 1 < token_accounts.length then
      .error (.ambiguousHolder mint)
    else if token_accounts.isEmpty then
      .error (.noHolderFound mint)
    else
      match token_accounts.head? with
      | some account => strToPubkey account.address
      | none => .error .panicked

/-- src/data.rs Asset: mint plus derived metadata address; the edition
address is present only after add_edition. -/
structure Asset where
  mint : Pubkey
  metadata : Pubkey
  edition : Option Pubkey
  deriving DecidableEq, Repr

/-- Asset::new. -/
def Asset.new (mint : Pubkey) : Asset :=
  { mint := mint, metadata := derive_metadata_pda mint, edition := none }

/-- Asset::add_edition. -/
def Asset.add_edition (a : Asset) : Asset :=
  { a with edition := some (derive_edition_pda a.mint) }

/-- Asset::get_token_record. -/
def Asset.get_token_record (a : Asset) (token : Pubkey) : Pubkey :=
  derive_token_record_pda a.mint token

/-- Asset::get_metadata delegates to decode_metadata at the derived
metadata address. -/
def Asset.get_metadata (a : Asset) (client : RpcClient) :
    Except MbError Metadata :=
  client.decodeMetadataAt a.metadata

/-- The delay iterator `Exponential::from_millis_with_factor(base, factor)`
of the retry crate, truncated by `.take(n)`: the first delay is `base` and
each subsequent delay is the previous times `factor`. -/
def exponentialDelays (base factor : Nat) : Nat → List Nat
  | 0 => []
  | n + 1 => base :: exponentialDelays (base * factor) factor n

/-- Outcome of running the retry loop: final result, the number of times
the operation was invoked (the retry crate's `tries` counter), and the
total delay slept. -/
structure RetryOutcome (R : Type) where
  result : Except MbError R
  tries : Nat
  total_delay : Nat
  deriving Repr

/-- The loop of the retry crate's `retry_with_index`: invoke the operation;
on success stop; on failure consume the next delay and go again, or give up
when the delay iterator is exhausted.  The operation is indexed by the
current try number, exactly as in the crate. -/
def retryGo {R : Type} (op : Nat → Except MbError R) :
    List Nat → Nat → Nat → RetryOutcome R
  | delays, current_try, total_delay =>
    match op current_try with
    | .ok v => ⟨.ok v, current_try, total_delay⟩
    | .error e =>
      match delays with
      | [] => ⟨.error e, current_try, total_delay⟩
      | d :: rest => retryGo op rest (current_try + 1) (total_delay + d)

/-- `retry::retry(delays, op)`: first try is attempt 1, with no delay
before it. -/
def retryRun {R : Type} (delays : List Nat) (op : Nat → Except MbError R) :
    RetryOutcome R :=
  retryGo op delays 1 0

/-- The delay policy used at every retrying call site of the library:
`Exponential::from_millis_with_factor(250, 2.0).take(3)`. -/
def retryDelays : List Nat := exponentialDelays 250 2 3

/-- src/transaction.rs transaction! macro:
`Transaction::new_signed_with_payer(ixs, Some(signers[0]), signers, blockhash)`.
Indexing an empty signer slice panics. -/
def mkTransaction (signers : List Pubkey) (ixs : List Instruction)
    (blockhash : Nat) : Except MbError Transaction :=
  match signers with
  | [] => .error .panicked
  | payer :: _ =>
    .ok { instructions := ixs, fee_payer := payer, signers := signers,
          recent_blockhash := blockhash }

/-- src/transaction.rs send_and_confirm_tx: build the signed transaction
and submit it exactly once. -/
def send_and_confirm_tx (client : RpcClient) (signers : List Pubkey)
    (ixs : List Instruction) : Except MbError Signature := do
  let bh ← client.latestBlockhash
  let tx ← mkTransaction signers ixs bh
  client.sendAndConfirmAttempt tx 1

/-- src/transaction.rs send_and_confirm_tx_with_retries: build the signed
transaction, then submit it under the exponential retry policy.  The retry
crate's error wrapper is unwound by `?`; the inner error is surfaced. -/
def send_and_confirm_tx_with_retries (client : RpcClient)
    (signers : List Pubkey) (ixs : List Instruction) :
    Except MbError Signature := do
  let bh ← client.latestBlockhash
  let tx ← mkTransaction signers ixs bh
  (retryRun retryDelays (fun i => client.sendAndConfirmAttempt tx i)).result

/-- Modelled from the spec (section 4.2, asset handle) together with its
in-source call sites: the `Nft` handle imported by src/transfer/mod.rs from
`crate::data` is not among the source files.  Its constructor derives the
metadata address; the transfer assembler reads `nft.edition` as a bare
address (no add_edition step precedes it), so the edition address is
derived eagerly at construction. -/
structure Nft where
  mint : Pubkey
  metadata : Pubkey
  edition : Pubkey
  deriving DecidableEq, Repr

/-- Nft::new (see `Nft`). -/
def Nft.new (mint : Pubkey) : Nft :=
  { mint := mint, metadata := derive_metadata_pda mint,
    edition := derive_edition_pda mint }

/-- Nft::get_token_record, as Asset::get_token_record. -/
def Nft.get_token_record (n : Nft) (token : Pubkey) : Pubkey :=
  derive_token_record_pda n.mint token

/-- Nft::get_metadata, as Asset::get_metadata. -/
def Nft.get_metadata (n : Nft) (client : RpcClient) :
    Except MbError Metadata :=
  client.decodeMetadataAt n.metadata

/-- The external metadata crate's TransferBuilder (v1 API): a bag of
optional account fields with fixed program defaults. -/
structure TransferBuilder where
  token : Option Pubkey := none
  token_owner : Option Pubkey := none
  destination : Option Pubkey := none
  destination_owner : Option Pubkey := none
  mint : Option Pubkey := none
  metadata : Option Pubkey := none
  edition : Option Pubkey := none
  owner_token_record : Option Pubkey := none
  destination_token_record : Option Pubkey := none
  authority : Option Pubkey := none
  payer : Option Pubkey := none
  system_program : Pubkey := SYSTEM_PROGRAM_ID
  sysvar_instructions : Pubkey := SYSVAR_INSTRUCTIONS_ID
  spl_token_program : Pubkey := SPL_TOKEN_PROGRAM_ID
  spl_ata_program : Pubkey := SPL_ATA_PROGRAM_ID
  authorization_rules_program : Option Pubkey := none
  authorization_rules : Option Pubkey := none
  deriving DecidableEq, Repr

/-- The built Transfer instruction record (required accounts resolved). -/
structure Transfer where
  token : Pubkey
  token_owner : Pubkey
  destination : Pubkey
  destination_owner : Pubkey
  mint : Pubkey
  metadata : Pubkey
  edition : Option Pubkey
  owner_token_record : Option Pubkey
  destination_token_record : Option Pubkey
  authority : Pubkey
  payer : Pubkey
  system_program : Pubkey
  sysvar_instructions : Pubkey
  spl_token_program : Pubkey
  spl_ata_program : Pubkey
  authorization_rules_program : Option Pubkey
  authorization_rules : Option Pubkey
  amount : Nat
  authorization_data : Option AuthorizationData
  deriving DecidableEq, Repr

/-- TransferBuilder::build(TransferArgs::V1 { amount, authorization_data }):
fails unless every required account was set. -/
def TransferBuilder.build (b : TransferBuilder) (amount : Nat)
    (authorization_data : Option AuthorizationData) : Except MbError Transfer :=
  match b.token, b.token_owner, b.destination, b.destination_owner,
      b.mint, b.metadata, b.authority, b.payer with
  | some token, some token_owner, some destination, some destination_owner,
      some mint, some metadata, some authority, some payer =>
    .ok { token := token, token_owner := token_owner,
          destination := destination, destination_owner := destination_owner,
          mint := mint, metadata := metadata, edition := b.edition,
          owner_token_record := b.owner_token_record,
          destination_token_record := b.destination_token_record,
          authority := authority, payer := payer,
          system_program := b.system_program,
          sysvar_instructions := b.sysvar_instructions,
          spl_token_program := b.spl_token_program,
          spl_ata_program := b.spl_ata_program,
          authorization_rules_program := b.authorization_rules_program,
          authorization_rules := b.authorization_rules,
          amount := amount, authorization_data := authorization_data }
  | _, _, _, _, _, _, _, _ => .error (.builderFailed "missing required account".data)

/-- Transfer::instruction (v1 API): the fixed positional account list of
the on-chain Transfer instruction; unused optional slots carry the program
id as a non-writable, non-signer sentinel. -/
def Transfer.instruction (t : Transfer) : Instruction :=
  { program_id := METAPLEX_PROGRAM_ID,
    accounts := [
      AccountMeta.new t.token false,
      AccountMeta.new_readonly t.token_owner false,
      AccountMeta.new t.destination false,
      AccountMeta.new_readonly t.destination_owner false,
      AccountMeta.new_readonly t.mint false,
      AccountMeta.new t.metadata false,
      AccountMeta.new_readonly (t.edition.getD METAPLEX_PROGRAM_ID) false,
      match t.owner_token_record with
      | some r => AccountMeta.new r false
      | none => AccountMeta.new_readonly METAPLEX_PROGRAM_ID false,
      match t.destination_token_record with
      | some r => AccountMeta.new r false
      | none => AccountMeta.new_readonly METAPLEX_PROGRAM_ID false,
      AccountMeta.new_readonly t.authority true,
      AccountMeta.new t.payer true,
      AccountMeta.new_readonly t.system_program false,
      AccountMeta.new_readonly t.sysvar_instructions false,
      AccountMeta.new_readonly t.spl_token_program false,
      AccountMeta.new_readonly t.spl_ata_program false,
      AccountMeta.new_readonly (t.authorization_rules_program.getD METAPLEX_PROGRAM_ID) false,
      AccountMeta.new_readonly (t.authorization_rules.getD METAPLEX_PROGRAM_ID) false ],
    data := .transferV1 t.amount t.authorization_data }

/-- src/transfer/mod.rs TransferAssetArgs::V1, with the polymorphic
`ToPubkey` parameters instantiated at `Pubkey` (whose to_pubkey is the
identity). -/
structure TransferAssetArgsV1 where
  payer : Option Pubkey
  authority : Pubkey
  mint : Pubkey
  source_owner : Pubkey
  source_token : Pubkey
  destination_owner : Pubkey
  destination_token : Pubkey
  amount : Nat
  authorization_data : Option AuthorizationData

/-- src/transfer/mod.rs transfer_asset_v1: build the asset handle, set the
static builder accounts (edition included, before the metadata fetch),
fetch metadata, add the two token records and possibly the rule set for
programmable non-fungibles, build the instruction, and submit under the
retry policy. -/
def transfer_asset_v1 (client : RpcClient) (args : TransferAssetArgsV1) :
    Except MbError Signature := do
  let nft := Nft.new args.mint
  let payer := args.payer.getD args.authority
  let tb1 : TransferBuilder :=
    { payer := some payer, authority := some args.authority,
      token := some args.source_token, token_owner := some args.source_owner,
      destination := some args.destination_token,
      destination_owner := some args.destination_owner,
      mint := some nft.mint, metadata := some nft.metadata,
      edition := some nft.edition }
  let md ← nft.get_metadata client
  let tb2 :=
    if md.token_standard = some TokenStandard.ProgrammableNonFungible then
      let source_token_record := nft.get_token_record args.source_token
      let destination_token_record := nft.get_token_record args.destination_token
      let tbr := { tb1 with
                   owner_token_record := some source_token_record
                   destination_token_record := some destination_token_record }
      match md.programmable_config with
      | some (.V1 (some auth_rules)) =>
        { tbr with authorization_rules := some auth_rules }
      | _ => tbr
    else tb1
  let built ← tb2.build args.amount args.authorization_data
  let transfer_ix := built.instruction
  let recent_blockhash ← client.latestBlockhash
  let tx : Transaction :=
    { instructions := [transfer_ix], fee_payer := payer,
      signers := [payer, args.authority], recent_blockhash := recent_blockhash }
  (retryRun retryDelays (fun i => client.sendAndConfirmAttempt tx i)).result

/-- src/delegate/mod.rs DELEGATE_IX discriminator byte. -/
def DELEGATE_IX : Nat := 44

/-- mpl_token_metadata MetadataDelegateRole. -/
inductive MetadataDelegateRole where
  | AuthorityItem
  | Collection
  | Use
  | Data
  | ProgrammableConfig
  | DataItem
  | CollectionItem
  | ProgrammableConfigItem
  deriving DecidableEq, Repr

/-- The external crate's MetadataDelegateRoleSeed: per-role seed strings of
the metadata-delegate-record derivation. -/
def MetadataDelegateRoleSeed : MetadataDelegateRole → Str
  | .AuthorityItem => "authority_item_delegate".data
  | .Collection => "collection_delegate".data
  | .Use => "use_delegate".data
  | .Data => "data_delegate".data
  | .ProgrammableConfig => "programmable_config_delegate".data
  | .DataItem => "data_item_delegate".data
  | .CollectionItem => "collection_item_delegate".data
  | .ProgrammableConfigItem => "prog_config_item_delegate".data

/-- src/delegate/mod.rs DelegateAccounts. -/
structure DelegateAccounts where
  payer : Pubkey
  authority : Pubkey
  delegate : Pubkey
  delegate_record : Option Pubkey
  metadata : Pubkey
  mint : Pubkey
  token : Option Pubkey
  master_edition : Option Pubkey
  token_record : Option Pubkey
  spl_token_program : Option Pubkey
  authorization_rules_program : Option Pubkey
  authorization_rules : Option Pubkey
  deriving DecidableEq, Repr

/-- src/delegate/mod.rs delegate_ix: assemble the Delegate instruction with
its fixed positional account list; unset optional slots are filled with the
program id as a read-only sentinel. -/
def delegate_ix (accounts : DelegateAccounts) (args : DelegateArgs) :
    Instruction :=
  { program_id := METAPLEX_PROGRAM_ID,
    accounts := [
      match accounts.delegate_record with
      | some delegate_record => AccountMeta.new delegate_record false
      | none => AccountMeta.new_readonly METAPLEX_PROGRAM_ID false,
      AccountMeta.new_readonly accounts.delegate false,
      AccountMeta.new accounts.metadata false,
      AccountMeta.new_readonly (accounts.master_edition.getD METAPLEX_PROGRAM_ID) false,
      match accounts.token_record with
      | some token_record => AccountMeta.new token_record false
      | none => AccountMeta.new_readonly METAPLEX_PROGRAM_ID false,
      AccountMeta.new_readonly accounts.mint false,
      match accounts.token with
      | some token => AccountMeta.new token false
      | none => AccountMeta.new_readonly METAPLEX_PROGRAM_ID false,
      AccountMeta.new_readonly accounts.authority true,
      AccountMeta.new accounts.payer true,
      AccountMeta.new_readonly SYSTEM_PROGRAM_ID false,
      AccountMeta.new_readonly SYSVAR_INSTRUCTIONS_ID false,
      AccountMeta.new_readonly (accounts.spl_token_program.getD METAPLEX_PROGRAM_ID) false,
      AccountMeta.new_readonly (accounts.authorization_rules_program.getD METAPLEX_PROGRAM_ID) false,
      AccountMeta.new_readonly (accounts.authorization_rules.getD METAPLEX_PROGRAM_ID) false ],
    data := .delegateV1 args }

/-- src/delegate/mod.rs DelegateAssetArgs::V1, `ToPubkey` parameters
instantiated at `Pubkey`. -/
structure DelegateAssetArgsV1 where
  payer : Option Pubkey
  authority : Pubkey
  mint : Pubkey
  token : Option Pubkey
  delegate : Pubkey
  delegate_args : DelegateArgs

/-- src/delegate/mod.rs delegate_asset_v1_ix: resolve the token account
(looking it up when omitted), fetch metadata, pick the record slot by
delegate-args family (token-record PDA for the token-record family,
metadata-delegate-record PDA for the persistent family, nothing for
Standard), add the edition for non-fungible or absent standards, and emit
the instruction. -/
def delegate_asset_v1_ix (client : RpcClient) (args : DelegateAssetArgsV1) :
    Except MbError Instruction := do
  let payer := args.payer.getD args.authority
  let mint := args.mint
  let asset := Asset.new mint
  let token_lookup := match args.token with
    | some t => (pure t : Except MbError Pubkey)
    | none => get_nft_token_account client mint
  let token ← token_lookup
  let md ← asset.get_metadata client
  let delegate := args.delegate
  let (auth_rules, auth_rules_program) :=
    match md.programmable_config with
    | some (.V1 rules) => (rules, some AUTH_RULES_PROGRAM_ID)
    | none => (none, none)
  let delegate_accounts : DelegateAccounts :=
    { payer := payer, authority := args.authority,
      metadata := asset.metadata, mint := mint, delegate := delegate,
      delegate_record := none, token := none, master_edition := none,
      token_record := none, spl_token_program := some SPL_TOKEN_PROGRAM_ID,
      authorization_rules := auth_rules,
      authorization_rules_program := auth_rules_program }
  let delegate_accounts :=
    match args.delegate_args with
    | .SaleV1 _ _ | .TransferV1 _ _ | .UtilityV1 _ _ | .StakingV1 _ _
    | .PrintDelegateV1 _ | .LockedTransferV1 _ _ _ =>
      let token_record := derive_token_record_pda mint token
      { delegate_accounts with token_record := some token_record }
    | .AuthorityItemV1 _ =>
      let delegate_record := metadata_delegate_record_pda mint (MetadataDelegateRoleSeed .AuthorityItem) payer delegate
      { delegate_accounts with delegate_record := some delegate_record }
    | .DataV1 _ =>
      let delegate_record := metadata_delegate_record_pda mint (MetadataDelegateRoleSeed .Data) payer delegate
      { delegate_accounts with delegate_record := some delegate_record }
    | .DataItemV1 _ =>
      let delegate_record := metadata_delegate_record_pda mint (MetadataDelegateRoleSeed .DataItem) payer delegate
      { delegate_accounts with delegate_record := some delegate_record }
    | .CollectionV1 _ =>
      let delegate_record := metadata_delegate_record_pda mint (MetadataDelegateRoleSeed .Collection) payer delegate
      { delegate_accounts with delegate_record := some delegate_record }
    | .CollectionItemV1 _ =>
      let delegate_record := metadata_delegate_record_pda mint (MetadataDelegateRoleSeed .CollectionItem) payer delegate
      { delegate_accounts with delegate_record := some delegate_record }
    | .ProgrammableConfigV1 _ =>
      let delegate_record := metadata_delegate_record_pda mint (MetadataDelegateRoleSeed .ProgrammableConfig) payer delegate
      { delegate_accounts with delegate_record := some delegate_record }
    | .ProgrammableConfigItemV1 _ =>
      let delegate_record := metadata_delegate_record_pda mint (MetadataDelegateRoleSeed .ProgrammableConfigItem) payer delegate
      { delegate_accounts with delegate_record := some delegate_record }
    | .StandardV1 _ => delegate_accounts
  let delegate_accounts :=
    if md.token_standard = some TokenStandard.NonFungible
        ∨ md.token_standard = some TokenStandard.NonFungibleEdition
        ∨ md.token_standard = some TokenStandard.ProgrammableNonFungible
        ∨ md.token_standard = none then
      let asset := asset.add_edition
      { delegate_accounts with master_edition := asset.edition }
    else delegate_accounts
  .ok (delegate_ix delegate_accounts args.delegate_args)

/-- src/delegate/mod.rs delegate_asset_v1: build the instruction and submit
it once via send_and_confirm_tx. -/
def delegate_asset_v1 (client : RpcClient) (args : DelegateAssetArgsV1) :
    Except MbError Signature := do
  let payer := args.payer.getD args.authority
  let ix ← delegate_asset_v1_ix client args
  send_and_confirm_tx client [payer, args.authority] [ix]

/-- src/data.rs Priority: five-point priority enumeration. -/
inductive Priority where
  | None
  | Low
  | Medium
  | High
  | Max
  deriving DecidableEq, Repr

/-- src/data.rs UPDATE_COMPUTE_UNITS. -/
def UPDATE_COMPUTE_UNITS : Nat := 50000

/-- `ComputeBudgetInstruction::set_compute_unit_limit`. -/
def set_compute_unit_limit (units : Nat) : Instruction :=
  { program_id := COMPUTE_BUDGET_PROGRAM_ID, accounts := [],
    data := .setComputeUnitLimit units }

/-- `ComputeBudgetInstruction::set_compute_unit_price`. -/
def set_compute_unit_price (microLamports : Nat) : Instruction :=
  { program_id := COMPUTE_BUDGET_PROGRAM_ID, accounts := [],
    data := .setComputeUnitPrice microLamports }

/-- The external metadata crate's UpdateV1 account record (v3 API). -/
structure UpdateV1 where
  payer : Pubkey
  authority : Pubkey
  mint : Pubkey
  metadata : Pubkey
  delegate_record : Option Pubkey
  token : Option Pubkey
  edition : Option Pubkey
  system_program : Pubkey
  sysvar_instructions : Pubkey
  authorization_rules : Option Pubkey
  authorization_rules_program : Option Pubkey
  deriving DecidableEq, Repr

/-- UpdateV1::instruction: positional account list of the on-chain UpdateV1
instruction, unset optional slots filled with the program-id sentinel.
Writability bits of the externally generated builder are modelled
best-effort; no claim below depends on them, only on the slot addresses. -/
def UpdateV1.instruction (u : UpdateV1) (args : V1UpdateArgs) : Instruction :=
  { program_id := METAPLEX_PROGRAM_ID,
    accounts := [
      AccountMeta.new_readonly u.authority true,
      AccountMeta.new_readonly (u.delegate_record.getD METAPLEX_PROGRAM_ID) false,
      AccountMeta.new_readonly (u.token.getD METAPLEX_PROGRAM_ID) false,
      AccountMeta.new_readonly u.mint false,
      AccountMeta.new u.metadata false,
      AccountMeta.new_readonly (u.edition.getD METAPLEX_PROGRAM_ID) false,
      AccountMeta.new u.payer true,
      AccountMeta.new_readonly u.system_program false,
      AccountMeta.new_readonly u.sysvar_instructions false,
      AccountMeta.new_readonly (u.authorization_rules_program.getD METAPLEX_PROGRAM_ID) false,
      AccountMeta.new_readonly (u.authorization_rules.getD METAPLEX_PROGRAM_ID) false ],
    data := .updateV1 args }

/-- src/update/mod.rs UpdateAssetArgs::V1, `ToPubkey` parameters
instantiated at `Pubkey`. -/
structure UpdateAssetArgsV1 where
  payer : Option Pubkey
  authority : Pubkey
  mint : Pubkey
  token : Option Pubkey
  delegate_record : Option Pubkey
  update_args : V1UpdateArgs
  priority : Priority

/-- src/update/mod.rs update_asset_v1_ix: fetch metadata; the token slot is
re-bound so that it holds the locator result when the standard is
ProgrammableNonFungible and no token was supplied, and `None` otherwise
(a caller-supplied token account is discarded); the edition is added for
non-fungible or absent standards; rule set and auth-rules program are
threaded from the programmable config. -/
def update_asset_v1_ix (client : RpcClient) (args : UpdateAssetArgsV1) :
    Except MbError Instruction := do
  let payer := args.payer.getD args.authority
  let mint := args.mint
  let asset := Asset.new mint
  let md ← asset.get_metadata client
  let token := args.token
  let delegate_record := args.delegate_record
  let token_lookup :=
    if md.token_standard = some TokenStandard.ProgrammableNonFungible
        ∧ token = none then
      (get_nft_token_account client mint).map some
    else
      (pure none : Except MbError (Option Pubkey))
  let token ← token_lookup
  let asset :=
    if md.token_standard = some TokenStandard.NonFungible
        ∨ md.token_standard = some TokenStandard.NonFungibleEdition
        ∨ md.token_standard = some TokenStandard.ProgrammableNonFungible
        ∨ md.token_standard = none then
      asset.add_edition
    else asset
  let (authorization_rules, authorization_rules_program) :=
    match md.programmable_config with
    | some (.V1 (some rule_set)) => (some rule_set, some AUTH_RULES_PROGRAM_ID)
    | _ => (none, none)
  let update_struct : UpdateV1 :=
    { payer := payer, authority := args.authority, mint := asset.mint,
      metadata := asset.metadata, delegate_record := delegate_record,
      token := token, edition := asset.edition,
      system_program := SYSTEM_PROGRAM_ID,
      sysvar_instructions := SYSVAR_INSTRUCTIONS_ID,
      authorization_rules := authorization_rules,
      authorization_rules_program := authorization_rules_program }
  .ok (update_struct.instruction args.update_args)

/-- src/update/mod.rs update_asset_v1: map the priority level to a
compute-unit price, prepend the two compute-budget instructions to the
update instruction, and submit once via send_and_confirm_tx. -/
def update_asset_v1 (client : RpcClient) (args : UpdateAssetArgsV1) :
    Except MbError Signature := do
  let payer := args.payer.getD args.authority
  let micro_lamports :=
    match args.priority with
    | .None => 20
    | .Low => 20000
    | .Medium => 200000
    | .High => 1000000
    | .Max => 2000000
  let update_ix ← update_asset_v1_ix client args
  let instructions :=
    [set_compute_unit_limit UPDATE_COMPUTE_UNITS,
     set_compute_unit_price micro_lamports,
     update_ix]
  send_and_confirm_tx client [payer, args.authority] instructions

/-- src/mint/mod.rs AssetData. -/
structure AssetData where
  name : Str
  symbol : Str
  uri : Str
  seller_fee_basis_points : Nat
  creators : Option (List Creator)
  primary_sale_happened : Bool
  is_mutable : Bool
  token_standard : TokenStandard
  collection : Option Collection
  uses : Option Uses
  collection_details : Option CollectionDetails
  rule_set : Option Pubkey
  deriving DecidableEq, Repr

/-- The external metadata crate's CreateV1Builder (v3 API): optional fields
set by the builder methods; mint and update_authority carry their signer
flags. -/
structure CreateV1Builder where
  metadata : Option Pubkey := none
  master_edition : Option Pubkey := none
  mint : Option (Pubkey × Bool) := none
  authority : Option Pubkey := none
  payer : Option Pubkey := none
  update_authority : Option (Pubkey × Bool) := none
  system_program : Option Pubkey := none
  name : Option Str := none
  symbol : Option Str := none
  uri : Option Str := none
  seller_fee_basis_points : Option Nat := none
  primary_sale_happened : Option Bool := none
  is_mutable : Option Bool := none
  token_standard : Option TokenStandard := none
  creators : Option (List Creator) := none
  collection : Option Collection := none
  uses : Option Uses := none
  collection_details : Option CollectionDetails := none
  rule_set : Option Pubkey := none
  decimals : Option Nat := none
  print_supply : Option PrintSupply := none
  deriving DecidableEq, Repr

/-- CreateV1Builder::instruction(): panics (modelled as `MbError.panicked`)
when a required field is unset; otherwise emits the CreateV1 instruction
with unset optional account slots filled by the program-id sentinel. -/
def CreateV1Builder.instruction (b : CreateV1Builder) :
    Except MbError Instruction :=
  match b.metadata, b.mint, b.authority, b.payer, b.update_authority,
      b.name, b.symbol, b.uri, b.seller_fee_basis_points, b.token_standard with
  | some metadata, some (mint, mint_signer), some authority, some payer,
      some (update_authority, ua_signer), some name, some symbol, some uri,
      some sfbp, some token_standard =>
    .ok { program_id := METAPLEX_PROGRAM_ID,
          accounts := [
            AccountMeta.new metadata false,
            match b.master_edition with
            | some e => AccountMeta.new e false
            | none => AccountMeta.new_readonly METAPLEX_PROGRAM_ID false,
            AccountMeta.new mint mint_signer,
            AccountMeta.new_readonly authority true,
            AccountMeta.new payer true,
            AccountMeta.new_readonly update_authority ua_signer,
            AccountMeta.new_readonly (b.system_program.getD SYSTEM_PROGRAM_ID) false,
            AccountMeta.new_readonly SYSVAR_INSTRUCTIONS_ID false,
            AccountMeta.new_readonly SPL_TOKEN_PROGRAM_ID false ],
          data := .createV1 {
            name := name, symbol := symbol, uri := uri,
            seller_fee_basis_points := sfbp,
            primary_sale_happened := b.primary_sale_happened.getD false,
            is_mutable := b.is_mutable.getD false,
            token_standard := token_standard,
            creators := b.creators, collection := b.collection,
            uses := b.uses, collection_details := b.collection_details,
            rule_set := b.rule_set, decimals := b.decimals,
            print_supply := b.print_supply } }
  | _, _, _, _, _, _, _, _, _, _ => .error .panicked

/-- The external metadata crate's MintV1Builder (v3 API). -/
structure MintV1Builder where
  token : Option Pubkey := none
  token_owner : Option Pubkey := none
  metadata : Option Pubkey := none
  master_edition : Option Pubkey := none
  token_record : Option Pubkey := none
  mint : Option Pubkey := none
  authority : Option Pubkey := none
  delegate_record : Option Pubkey := none
  payer : Option Pubkey := none
  system_program : Option Pubkey := none
  authorization_rules_program : Option Pubkey := none
  authorization_rules : Option Pubkey := none
  amount : Option Nat := none
  authorization_data : Option AuthorizationData := none
  deriving DecidableEq, Repr

/-- MintV1Builder::instruction(): panics (modelled as `MbError.panicked`)
when a required field is unset; otherwise emits the MintV1 instruction,
sentinel-filling unset optional slots.  The default amount is 1. -/
def MintV1Builder.instruction (b : MintV1Builder) :
    Except MbError Instruction :=
  match b.token, b.metadata, b.mint, b.authority, b.payer with
  | some token, some metadata, some mint, some authority, some payer =>
    .ok { program_id := METAPLEX_PROGRAM_ID,
          accounts := [
            AccountMeta.new token false,
            AccountMeta.new_readonly (b.token_owner.getD METAPLEX_PROGRAM_ID) false,
            AccountMeta.new metadata false,
            match b.master_edition with
            | some e => AccountMeta.new e false
            | none => AccountMeta.new_readonly METAPLEX_PROGRAM_ID false,
            match b.token_record with
            | some r => AccountMeta.new r false
            | none => AccountMeta.new_readonly METAPLEX_PROGRAM_ID false,
            AccountMeta.new mint false,
            AccountMeta.new_readonly authority true,
            AccountMeta.new_readonly (b.delegate_record.getD METAPLEX_PROGRAM_ID) false,
            AccountMeta.new payer true,
            AccountMeta.new_readonly (b.system_program.getD SYSTEM_PROGRAM_ID) false,
            AccountMeta.new_readonly SYSVAR_INSTRUCTIONS_ID false,
            AccountMeta.new_readonly SPL_TOKEN_PROGRAM_ID false,
            AccountMeta.new_readonly SPL_ATA_PROGRAM_ID false,
            AccountMeta.new_readonly (b.authorization_rules_program.getD METAPLEX_PROGRAM_ID) false,
            AccountMeta.new_readonly (b.authorization_rules.getD METAPLEX_PROGRAM_ID) false ],
          data := .mintV1 (b.amount.getD 1) b.authorization_data }
  | _, _, _, _, _ => .error .panicked

/-- src/mint/mod.rs MintAssetArgs::V1, `ToPubkey` parameter instantiated at
`Pubkey`; the optional mint keypair is represented by its public key. -/
structure MintAssetArgsV1 where
  payer : Option Pubkey
  authority : Pubkey
  receiver : Pubkey
  mint : Option Pubkey
  asset_data : AssetData
  print_supply : Option PrintSupply
  mint_decimals : Option Nat
  amount : Nat
  authorization_data : Option AuthorizationData

/-- src/mint/mod.rs MintResult. -/
structure MintResult where
  signature : Signature
  mint : Pubkey
  deriving DecidableEq, Repr

/-- src/mint/mod.rs mint_asset_v1: reject decimals above 9; assemble the
CreateV1 instruction from the asset data; the mint instruction's
destination token account is the associated token account of (receiver,
mint) and its token record is derived from (mint, that token account); for
NonFungible and ProgrammableNonFungible the amount must be 1 and the
edition is added to both instructions; the two instructions are submitted
together under the retry policy. -/
def mint_asset_v1 (client : RpcClient) (args : MintAssetArgsV1) :
    Except MbError MintResult := do
  let mint_signer := args.mint.getD client.freshKeypair
  let asset := Asset.new mint_signer
  let receiver := args.receiver
  let payer := args.payer.getD args.authority
  let token_standard := args.asset_data.token_standard
  match args.mint_decimals with
  | some decimals => if 9 < decimals then throw .decimalsTooHigh else pure ()
  | none => pure ()
  -- Each optional datum is applied through a guarded setter
  -- (`if let Some(x) = field { builder.x(x) }`) onto a field that starts
  -- unset, which is the same as copying the option into the field.
  let create_builder : CreateV1Builder :=
    { mint := some (asset.mint, true), metadata := some asset.metadata,
      authority := some args.authority, payer := some payer,
      update_authority := some (args.authority, true),
      name := some args.asset_data.name, symbol := some args.asset_data.symbol,
      uri := some args.asset_data.uri,
      seller_fee_basis_points := some args.asset_data.seller_fee_basis_points,
      primary_sale_happened := some args.asset_data.primary_sale_happened,
      is_mutable := some args.asset_data.is_mutable,
      token_standard := some token_standard,
      system_program := some SYSTEM_PROGRAM_ID,
      creators := args.asset_data.creators,
      collection := args.asset_data.collection,
      uses := args.asset_data.uses,
      collection_details := args.asset_data.collection_details,
      rule_set := args.asset_data.rule_set,
      decimals := args.mint_decimals,
      print_supply := args.print_supply }
  let token_ata := get_associated_token_address receiver asset.mint
  let token_record := derive_token_record_pda asset.mint token_ata
  let mint_builder : MintV1Builder :=
    { metadata := some asset.metadata, token := some token_ata,
      token_owner := some receiver, token_record := some token_record,
      mint := some asset.mint, authority := some args.authority,
      payer := some payer, system_program := some SYSTEM_PROGRAM_ID }
  let (asset, create_builder, mint_builder) ←
    if token_standard = TokenStandard.NonFungible
        ∨ token_standard = TokenStandard.ProgrammableNonFungible then do
      if args.amount ≠ 1 then
        throw .nonFungibleAmountNotOne
      let asset := asset.add_edition
      let create_builder := { create_builder with master_edition := asset.edition }
      let mint_builder := { mint_builder with master_edition := asset.edition }
      let mint_builder := { mint_builder with amount := some args.amount }
      pure (asset, create_builder, mint_builder)
    else
      pure (asset, create_builder, mint_builder)
  let create_ix ← create_builder.instruction
  let mint_builder := { mint_builder with amount := some args.amount }
  -- Guarded setter onto an unset field, as above.
  let mint_builder :=
    { mint_builder with authorization_data := args.authorization_data }
  let mint_ix ← mint_builder.instruction
  let recent_blockhash ← client.latestBlockhash
  let tx : Transaction :=
    { instructions := [create_ix, mint_ix], fee_payer := payer,
      signers := [payer, args.authority, mint_signer],
      recent_blockhash := recent_blockhash }
  let sig ← (retryRun retryDelays (fun i => client.sendAndConfirmAttempt tx i)).result
  .ok { signature := sig, mint := asset.mint }

/-- Account record shared by the external crate's Verify/Unverify builders
(creator and collection variants): authority plus the optional
delegate-record and collection accounts. -/
structure VerificationAccounts where
  authority : Option Pubkey := none
  delegate_record : Option Pubkey := none
  metadata : Option Pubkey := none
  collection_mint : Option Pubkey := none
  collection_metadata : Option Pubkey := none
  collection_master_edition : Option Pubkey := none
  deriving DecidableEq, Repr

/-- Emission shared by the Verify/Unverify builders: positional account
list [authority, delegate_record?, metadata, collection_mint?,
collection_metadata?, collection_master_edition?, system program, sysvar
instructions], sentinel-filled, with the given data tag; panics (modelled
as `MbError.panicked`) when a required field is unset. -/
def VerificationAccounts.instruction (v : VerificationAccounts)
    (tag : InstrData) : Except MbError Instruction :=
  match v.authority, v.metadata with
  | some authority, some metadata =>
    .ok { program_id := METAPLEX_PROGRAM_ID,
          accounts := [
            AccountMeta.new_readonly authority true,
            AccountMeta.new_readonly (v.delegate_record.getD METAPLEX_PROGRAM_ID) false,
            AccountMeta.new metadata false,
            AccountMeta.new_readonly (v.collection_mint.getD METAPLEX_PROGRAM_ID) false,
            match v.collection_metadata with
            | some m => AccountMeta.new m false
            | none => AccountMeta.new_readonly METAPLEX_PROGRAM_ID false,
            AccountMeta.new_readonly (v.collection_master_edition.getD METAPLEX_PROGRAM_ID) false,
            AccountMeta.new_readonly SYSTEM_PROGRAM_ID false,
            AccountMeta.new_readonly SYSVAR_INSTRUCTIONS_ID false ],
          data := tag }
  | _, _ => .error .panicked

/-- src/verify/creator.rs VerifyCreatorArgs::V1. -/
structure VerifyCreatorArgsV1 where
  authority : Pubkey
  mint : Pubkey

/-- src/verify/creator.rs verify_creator_v1: fetch metadata, reject unless
the standard is NonFungible, ProgrammableNonFungible or absent, then build
the VerifyCreatorV1 instruction and submit under the retry policy. -/
def verify_creator_v1 (client : RpcClient) (args : VerifyCreatorArgsV1) :
    Except MbError Signature := do
  let asset := Asset.new args.mint
  let md ← asset.get_metadata client
  let verify_builder : VerificationAccounts :=
    { authority := some args.authority, metadata := some asset.metadata }
  if ¬ (md.token_standard = some TokenStandard.NonFungible
      ∨ md.token_standard = some TokenStandard.ProgrammableNonFungible
      ∨ md.token_standard = none) then
    throw .onlyNonFungibleCreators
  let verify_ix ← verify_builder.instruction .verifyCreatorV1
  let recent_blockhash ← client.latestBlockhash
  let tx : Transaction :=
    { instructions := [verify_ix], fee_payer := args.authority,
      signers := [args.authority], recent_blockhash := recent_blockhash }
  (retryRun retryDelays (fun i => client.sendAndConfirmAttempt tx i)).result

/-- src/verify/collection.rs VerifyCollectionArgs::V1 (also the unverify
argument shape, src/unverify/collection.rs). -/
structure VerifyCollectionArgsV1 where
  authority : Pubkey
  mint : Pubkey
  collection_mint : Pubkey
  is_delegate : Bool

/-- src/verify/collection.rs verify_collection_v1_ix: build handles for the
target and the collection, force-add the collection's edition, fetch the
target's metadata (used only for the delegate-record derivation — note
there is no token-standard check on this path), and emit the
VerifyCollectionV1 instruction. -/
def verify_collection_v1_ix (client : RpcClient)
    (args : VerifyCollectionArgsV1) : Except MbError Instruction := do
  let asset := Asset.new args.mint
  let collection_asset := Asset.new args.collection_mint
  let md ← asset.get_metadata client
  let collection_asset := collection_asset.add_edition
  let verify_builder : VerificationAccounts :=
    { authority := some args.authority, metadata := some asset.metadata,
      collection_mint := some args.collection_mint,
      collection_metadata := some collection_asset.metadata,
      collection_master_edition := collection_asset.edition }
  let verify_builder :=
    if args.is_delegate then
      let pda_key := metadata_delegate_record_pda args.collection_mint
        (MetadataDelegateRoleSeed .Collection) md.update_authority args.authority
      { verify_builder with delegate_record := some pda_key }
    else verify_builder
  verify_builder.instruction .verifyCollectionV1

/-- src/verify/collection.rs verify_collection_v1: build the instruction
and submit under the retry policy. -/
def verify_collection_v1 (client : RpcClient)
    (args : VerifyCollectionArgsV1) : Except MbError Signature := do
  let verify_ix ← verify_collection_v1_ix client args
  let recent_blockhash ← client.latestBlockhash
  let tx : Transaction :=
    { instructions := [verify_ix], fee_payer := args.authority,
      signers := [args.authority], recent_blockhash := recent_blockhash }
  (retryRun retryDelays (fun i => client.sendAndConfirmAttempt tx i)).result

/-- src/unverify/creator.rs unverify_creator_v1: fetch metadata, reject
unless the standard is NonFungible, ProgrammableNonFungible or absent,
then build the UnverifyCreatorV1 instruction and submit exactly once via
send_and_confirm_tx. -/
def unverify_creator_v1 (client : RpcClient) (args : VerifyCreatorArgsV1) :
    Except MbError Signature := do
  let asset := Asset.new args.mint
  let md ← asset.get_metadata client
  let unverify_builder : VerificationAccounts :=
    { authority := some args.authority, metadata := some asset.metadata }
  if ¬ (md.token_standard = some TokenStandard.NonFungible
      ∨ md.token_standard = some TokenStandard.ProgrammableNonFungible
      ∨ md.token_standard = none) then
    throw .onlyNonFungibleCreators
  let unverify_ix ← unverify_builder.instruction .unverifyCreatorV1
  send_and_confirm_tx client [args.authority] [unverify_ix]

/-- src/unverify/collection.rs unverify_collection_v1_ix: fetch the
target's metadata, reject unless the standard is NonFungible,
ProgrammableNonFungible or absent, force-add the collection's edition, and
emit the Unverify(CollectionV1) instruction (the master-edition slot is not
passed on the unverify path). -/
def unverify_collection_v1_ix (client : RpcClient)
    (args : VerifyCollectionArgsV1) : Except MbError Instruction := do
  let asset := Asset.new args.mint
  let collection_asset := Asset.new args.collection_mint
  let md ← asset.get_metadata client
  if ¬ (md.token_standard = some TokenStandard.NonFungible
      ∨ md.token_standard = some TokenStandard.ProgrammableNonFungible
      ∨ md.token_standard = none) then
    throw .unverifyOnlyNonFungible
  let collection_asset := collection_asset.add_edition
  let unverify_builder : VerificationAccounts :=
    { authority := some args.authority, metadata := some asset.metadata,
      collection_mint := some args.collection_mint,
      collection_metadata := some collection_asset.metadata }
  let unverify_builder :=
    if args.is_delegate then
      let pda_key := metadata_delegate_record_pda args.collection_mint
        (MetadataDelegateRoleSeed .Collection) md.update_authority args.authority
      { unverify_builder with delegate_record := some pda_key }
    else unverify_builder
  unverify_builder.instruction .unverifyCollectionV1

/-- src/unverify/collection.rs unverify_collection_v1: build the
instruction and submit under the retry policy. -/
def unverify_collection_v1 (client : RpcClient)
    (args : VerifyCollectionArgsV1) : Except MbError Signature := do
  let unverify_ix ← unverify_collection_v1_ix client args
  let recent_blockhash ← client.latestBlockhash
  let tx : Transaction :=
    { instructions := [unverify_ix], fee_payer := args.authority,
      signers := [args.authority], recent_blockhash := recent_blockhash }
  (retryRun retryDelays (fun i => client.sendAndConfirmAttempt tx i)).result

/-- Rust `str::split(sep)` collected to a list: separators delimit
(possibly empty) fragments; the empty string yields one empty fragment. -/
def splitChar (sep : Char) : Str → List Str
  | [] => [[]]
  | c :: rest =>
    if c = sep then [] :: splitChar sep rest
    else
      match splitChar sep rest with
      | [] => [[c]]
      | h :: t => (c :: h) :: t

/-- Rust `[String]::join(sep)` for a single-character separator. -/
def joinSep (sep : Char) : List Str → Str
  | [] => []
  | [s] => s
  | s :: rest => s ++ sep :: joinSep sep rest

/-- The character of a decimal digit value. -/
def digitChar (d : Nat) : Char :=
  match d with
  | 0 => '0' | 1 => '1' | 2 => '2' | 3 => '3' | 4 => '4'
  | 5 => '5' | 6 => '6' | 7 => '7' | 8 => '8' | 9 => '9'
  | _ => '*'

/-- Digit-accumulator loop of the decimal rendering (fuel-recursive so the
kernel can evaluate it on literals). -/
def natToCharsAux (fuel n : Nat) (acc : List Char) : List Char :=
  match fuel with
  | 0 => acc
  | fuel + 1 =>
    let d := digitChar (n % 10)
    let n2 := n / 10
    if n2 = 0 then d :: acc else natToCharsAux fuel n2 (d :: acc)

/-- Rust `Display` for unsigned integers: decimal digits, "0" for zero,
no sign, no leading zeros. -/
def natToChars (n : Nat) : Str := natToCharsAux (n + 1) n []

/-- Rust `Display` for bool. -/
def boolToChars (b : Bool) : Str :=
  if b then "true".data else "false".data

/-- Rust `Display` for Pubkey: the base-58 text.  For a parsed key this is
the string it was parsed from (base-58 is canonical on valid encodings);
the base-58 text of PDA-derived keys is not modelled — the check module
only renders keys that were parsed. -/
def Pubkey.toChars : Pubkey → Str
  | .named s => s
  | _ => []

/-- src/check/mod.rs MetadataValue. -/
inductive MetadataValue where
  | Name (s : Str)
  | Symbol (s : Str)
  | Uri (s : Str)
  | SellerFeeBasisPoints (v : Nat)
  | Creators (creators : List Creator)
  | UpdateAuthority (s : Str)
  | PrimarySaleHappened (b : Bool)
  | IsMutable (b : Bool)
  | TokenStandard (s : Str)
  | CollectionParent (s : Str)
  | CollectionVerified (b : Bool)
  | RuleSet (s : Str)
  deriving DecidableEq, Repr

/-- One creator fragment of the creators value: `address:verified:share`,
split on ':' with the first three fragments read (`unwrap` panics when
fewer than three are present; extra fragments are ignored). -/
def parseCreator (c : Str) : Except MbError Creator :=
  match splitChar ':' c with
  | address :: verified :: share :: _ => do
    let address ← strToPubkey address
    let verified ← match parseBool verified with
      | some b => pure b
      | none => throw MbError.valueParseFailed
    let share ← match parseU8 share with
      | some n => pure n
      | none => throw MbError.valueParseFailed
    .ok { address := address, verified := verified, share := share }
  | _ => .error .panicked

/-- src/check/mod.rs `MetadataValue::from_str`: split once on '=' (the
first two fragments are the key and the value, further fragments are
dropped; a string with no '=' panics on the value unwrap), dispatch on the
key, and parse the typed values. -/
def MetadataValue.from_str (s : Str) : Except MbError MetadataValue :=
  match splitChar '=' s with
  | key :: value :: _ =>
    if key = "name".data then .ok (.Name value)
    else if key = "symbol".data then .ok (.Symbol value)
    else if key = "uri".data then .ok (.Uri value)
    else if key = "sfbp".data then
      match parseU16 value with
      | some v => .ok (.SellerFeeBasisPoints v)
      | none => .error .valueParseFailed
    else if key = "creators".data then
      match (splitChar ',' value).mapM parseCreator with
      | .ok creators => .ok (.Creators creators)
      | .error e => .error e
    else if key = "update_authority".data then .ok (.UpdateAuthority value)
    else if key = "primary_sale_happened".data then
      match parseBool value with
      | some b => .ok (.PrimarySaleHappened b)
      | none => .error .valueParseFailed
    else if key = "is_mutable".data then
      match parseBool value with
      | some b => .ok (.IsMutable b)
      | none => .error .valueParseFailed
    else if key = "token_standard".data then .ok (.TokenStandard value)
    else if key = "collection_parent".data then .ok (.CollectionParent value)
    else if key = "collection_verified".data then
      match parseBool value with
      | some b => .ok (.CollectionVerified b)
      | none => .error .valueParseFailed
    else if key = "rule_set".data then .ok (.RuleSet value)
    else .error .invalidMetadataKey
  | _ => .error .panicked

/-- The creator rendering of the Display impl:
`format!("{}:{}:{}", address, verified, share)`. -/
def creatorToChars (c : Creator) : Str :=
  c.address.toChars ++ ':' :: boolToChars c.verified ++ ':' :: natToChars c.share

/-- src/check/mod.rs `Display for MetadataValue` (`to_string`): `key=value`
with numbers and booleans in their canonical Rust rendering and creators
joined by ','. -/
def MetadataValue.toChars : MetadataValue → Str
  | .Name s => "name=".data ++ s
  | .Symbol s => "symbol=".data ++ s
  | .Uri s => "uri=".data ++ s
  | .SellerFeeBasisPoints v => "sfbp=".data ++ natToChars v
  | .Creators creators => "creators=".data ++ joinSep ',' (creators.map creatorToChars)
  | .UpdateAuthority s => "update_authority=".data ++ s
  | .PrimarySaleHappened b => "primary_sale_happened=".data ++ boolToChars b
  | .IsMutable b => "is_mutable=".data ++ boolToChars b
  | .TokenStandard s => "token_standard=".data ++ s
  | .CollectionParent s => "collection_parent=".data ++ s
  | .CollectionVerified b => "collection_verified=".data ++ boolToChars b
  | .RuleSet s => "rule_set=".data ++ s

/-! Theorems. -/

/-- Monadic bind on `Except` reduces on a success value. -/
theorem ok_bind {ε α β : Type} (a : α) (f : α → Except ε β) :
    (Except.ok a : Except ε α) >>= f = f a := rfl

/-- Monadic bind on `Except` short-circuits on an error. -/
theorem error_bind {ε α β : Type} (e : ε) (f : α → Except ε β) :
    (Except.error e : Except ε α) >>= f = .error e := rfl

/-- `pure` on `Except` is `ok`. -/
theorem pure_eq_ok {ε α : Type} (a : α) :
    (pure a : Except ε α) = .ok a := rfl

/-- C7: the Token-Account Locator filters the largest-token-accounts
response down to entries whose balance parses to exactly one unit; exactly
one candidate yields that candidate's address, more than one fails with the
ambiguous-holder error, none fails with the no-holder-found error, and the
two failures are distinct error kinds. -/
theorem locator_cases (client : RpcClient) (mint : Pubkey)
    (resp : List TokenAccount)
    (hresp : client.tokenLargestAccounts mint = .ok resp)
    (hparse : ∀ a ∈ resp, (parseU64 a.amount).isSome) :
    (∀ a, resp.filter (fun account => parseU64 account.amount == some 1) = [a] →
      isBase58Str a.address = true →
      get_nft_token_account client mint = .ok (Pubkey.named a.address))
    ∧ (1 < (resp.filter (fun account => parseU64 account.amount == some 1)).length →
      get_nft_token_account client mint = .error (.ambiguousHolder mint))
    ∧ (resp.filter (fun account => parseU64 account.amount == some 1) = [] →
      get_nft_token_account client mint = .error (.noHolderFound mint))
    ∧ MbError.ambiguousHolder mint ≠ MbError.noHolderFound mint := by
  have hany : resp.any (fun account => (parseU64 account.amount).isNone) = false := by
    rw [List.any_eq_false]
    intro a ha
    have := hparse a ha
    simp [Option.isNone, Option.isSome] at this ⊢
    cases hpa : parseU64 a.amount with
    | none => rw [hpa] at this; exact absurd this (by simp)
    | some v => simp
  refine ⟨?_, ?_, ?_, by simp⟩
  · intro a hfilter hb58
    simp only [get_nft_token_account, hresp, ok_bind, hany, hfilter]
    norm_num [strToPubkey, hb58]
  · intro hlen
    simp only [get_nft_token_account, hresp, ok_bind, hany]
    norm_num [hlen]
  · intro hfilter
    simp only [get_nft_token_account, hresp, ok_bind, hany, hfilter]
    norm_num

/-- A client whose largest-token-accounts response holds exactly one entry
with a balance of one unit; the other collaborators are unused. -/
def locatorClient : RpcClient :=
  { decodeMetadataAt := fun _ => .error .panicked,
    tokenLargestAccounts := fun _ =>
      .ok [{ address := "TokAcc1".data, amount := "1".data, decimals := 0,
             ui_amount_string := "1".data }],
    latestBlockhash := .error .panicked,
    sendAndConfirmAttempt := fun _ _ => .error .panicked,
    freshKeypair := .named "Fresh".data }

/-- C7 witness: on the single-holder client the locator returns the
holder's address. -/
theorem locator_cases_witness :
    get_nft_token_account locatorClient (.named "MintA".data) =
      .ok (.named "TokAcc1".data) :=
  (locator_cases locatorClient (.named "MintA".data)
    [{ address := "TokAcc1".data, amount := "1".data, decimals := 0,
       ui_amount_string := "1".data }] rfl (by decide)).1
    { address := "TokAcc1".data, amount := "1".data, decimals := 0,
      ui_amount_string := "1".data } (by decide) (by decide)

/-- The retry loop stops at the first successful attempt. -/
theorem retryGo_ok {R : Type} (op : Nat → Except MbError R)
    (delays : List Nat) (k d : Nat) (v : R) (hop : op k = .ok v) :
    retryGo op delays k d = ⟨.ok v, k, d⟩ := by
  cases delays <;> (unfold retryGo; rw [hop])

/-- With no delays left, a failed attempt ends the retry loop. -/
theorem retryGo_error_nil {R : Type} (op : Nat → Except MbError R)
    (k d : Nat) (e : MbError) (hop : op k = .error e) :
    retryGo op [] k d = ⟨.error e, k, d⟩ := by
  unfold retryGo; rw [hop]

/-- A failed attempt consumes the next delay and the loop goes again. -/
theorem retryGo_error_cons {R : Type} (op : Nat → Except MbError R)
    (dl : Nat) (rest : List Nat) (k d : Nat) (e : MbError)
    (hop : op k = .error e) :
    retryGo op (dl :: rest) k d = retryGo op rest (k + 1) (d + dl) := by
  conv_lhs => rw [retryGo]
  rw [hop]

/-- The number of operation invocations made by the retry loop never
exceeds the number of available delays plus one (the initial attempt). -/
theorem retryGo_tries_le {R : Type} (op : Nat → Except MbError R) :
    ∀ (delays : List Nat) (k d : Nat),
      (retryGo op delays k d).tries ≤ delays.length + k := by
  intro delays
  induction delays with
  | nil =>
    intro k d
    cases hop : op k with
    | ok v => rw [retryGo_ok op [] k d v hop]; simp
    | error e => rw [retryGo_error_nil op k d e hop]; simp
  | cons hd tl ih =>
    intro k d
    cases hop : op k with
    | ok v => rw [retryGo_ok op (hd :: tl) k d v hop]; simp
    | error e =>
      rw [retryGo_error_cons op hd tl k d e hop]
      have := ih (k + 1) (d + hd)
      simp only [List.length_cons]
      omega

/-- C9 (amended): submission retries follow the exponential policy with
base delay 250 ms and factor 2 (delays 250, 500, 1000), the retry loop
makes at most 4 attempts in total (one initial attempt plus up to 3
retries), the non-retrying sender submits exactly once (its result is the
outcome of attempt 1 alone), and the retrying variant runs the submission
under exactly this policy. -/
theorem retry_policy (client : RpcClient) (payer : Pubkey)
    (rest : List Pubkey) (ixs : List Instruction) (bh : Nat)
    (R : Type) (op : Nat → Except MbError R)
    (hbh : client.latestBlockhash = .ok bh) :
    retryDelays = [250, 500, 1000]
    ∧ (retryRun retryDelays op).tries ≤ 4
    ∧ send_and_confirm_tx client (payer :: rest) ixs =
        client.sendAndConfirmAttempt
          { instructions := ixs, fee_payer := payer, signers := payer :: rest,
            recent_blockhash := bh } 1
    ∧ send_and_confirm_tx_with_retries client (payer :: rest) ixs =
        (retryRun retryDelays (fun i => client.sendAndConfirmAttempt
          { instructions := ixs, fee_payer := payer, signers := payer :: rest,
            recent_blockhash := bh } i)).result := by
  refine ⟨rfl, ?_, ?_, ?_⟩
  · have h := retryGo_tries_le op retryDelays 1 0
    simpa [retryRun, retryDelays, exponentialDelays] using h
  · simp [send_and_confirm_tx, hbh, ok_bind, mkTransaction]
  · simp [send_and_confirm_tx_with_retries, hbh, ok_bind, mkTransaction]

/-- A submission collaborator that rejects the first three attempts and
accepts the fourth; the other collaborators are unused. -/
def retrySuccessAt4Client : RpcClient :=
  { decodeMetadataAt := fun _ => .error .panicked,
    tokenLargestAccounts := fun _ => .error .panicked,
    latestBlockhash := .ok 11,
    sendAndConfirmAttempt := fun _ i =>
      if 4 ≤ i then .ok ⟨"sigAttempt4".data⟩
      else .error (.transport "node unavailable".data),
    freshKeypair := .named "Fresh".data }

/-- C9 counterexample: against a submission collaborator that fails
attempts 1, 2 and 3, the retrying sender nevertheless succeeds and its
retry loop records 4 tries — so submission is not bounded by 3 attempts in
total, refuting the claimed bound. -/
theorem retry_four_attempts_counterexample :
    retrySuccessAt4Client.sendAndConfirmAttempt
        { instructions := [], fee_payer := .named "P1".data,
          signers := [.named "P1".data], recent_blockhash := 11 } 1 =
      .error (.transport "node unavailable".data)
    ∧ retrySuccessAt4Client.sendAndConfirmAttempt
        { instructions := [], fee_payer := .named "P1".data,
          signers := [.named "P1".data], recent_blockhash := 11 } 2 =
      .error (.transport "node unavailable".data)
    ∧ retrySuccessAt4Client.sendAndConfirmAttempt
        { instructions := [], fee_payer := .named "P1".data,
          signers := [.named "P1".data], recent_blockhash := 11 } 3 =
      .error (.transport "node unavailable".data)
    ∧ send_and_confirm_tx_with_retries retrySuccessAt4Client
        [.named "P1".data] [] = .ok ⟨"sigAttempt4".data⟩
    ∧ (retryRun retryDelays (fun i => retrySuccessAt4Client.sendAndConfirmAttempt
        { instructions := [], fee_payer := .named "P1".data,
          signers := [.named "P1".data], recent_blockhash := 11 } i)).tries = 4 := by
  refine ⟨rfl, rfl, rfl, rfl, rfl⟩

/-- C9 witness: the amended retry-policy theorem applied to the concrete
fail-three-times client. -/
theorem retry_policy_witness :
    retryDelays = [250, 500, 1000]
    ∧ (retryRun retryDelays (fun _ => (.error .panicked : Except MbError Signature))).tries ≤ 4
    ∧ send_and_confirm_tx retrySuccessAt4Client [.named "P1".data] [] =
        retrySuccessAt4Client.sendAndConfirmAttempt
          { instructions := [], fee_payer := .named "P1".data,
            signers := [.named "P1".data], recent_blockhash := 11 } 1
    ∧ send_and_confirm_tx_with_retries retrySuccessAt4Client [.named "P1".data] [] =
        (retryRun retryDelays (fun i => retrySuccessAt4Client.sendAndConfirmAttempt
          { instructions := [], fee_payer := .named "P1".data,
            signers := [.named "P1".data], recent_blockhash := 11 } i)).result :=
  retry_policy retrySuccessAt4Client (.named "P1".data) [] [] 11
    Signature (fun _ => .error .panicked) rfl

/-- The token-record delegate family: the variants whose delegate record
lives on the (mint, token) token record. -/
def isTokenRecordDelegateArgs : DelegateArgs → Bool
  | .SaleV1 _ _ | .TransferV1 _ _ | .UtilityV1 _ _ | .StakingV1 _ _
  | .PrintDelegateV1 _ | .LockedTransferV1 _ _ _ => true
  | _ => false

/-- The persistent-record delegate family: the metadata-delegate variants
keyed by (mint, role, creator, delegate). -/
def isPersistentDelegateArgs : DelegateArgs → Bool
  | .AuthorityItemV1 _ | .DataV1 _ | .DataItemV1 _ | .CollectionV1 _
  | .CollectionItemV1 _ | .ProgrammableConfigV1 _
  | .ProgrammableConfigItemV1 _ => true
  | _ => false

/-- C3: for every delegate instruction assembled with a token-record-family
variant (Sale, Transfer, Utility, Staking, LockedTransfer, PrintDelegate),
the token-record slot holds the token-record PDA of (mint, resolved-token),
where the resolved token is the caller-supplied account or the
Token-Account Locator's result when omitted; for persistent-record
variants the token-record slot holds the program-id sentinel. -/
theorem delegate_token_record_slot (client : RpcClient)
    (args : DelegateAssetArgsV1) (md : Metadata) (tok : Pubkey)
    (hmd : client.decodeMetadataAt (derive_metadata_pda args.mint) = .ok md)
    (hresolve : (match args.token with
      | some t => (pure t : Except MbError Pubkey)
      | none => get_nft_token_account client args.mint) = .ok tok) :
    (delegate_asset_v1_ix client args).map (fun ix => ix.accounts.get? 4) =
      .ok (some (if isTokenRecordDelegateArgs args.delegate_args then
        AccountMeta.new (derive_token_record_pda args.mint tok) false
      else
        AccountMeta.new_readonly METAPLEX_PROGRAM_ID false)) := by
  rcases args with ⟨payer, authority, mint, token, delegate, dargs⟩
  simp only at hmd hresolve ⊢
  rcases dargs <;>
    simp only [delegate_asset_v1_ix, hresolve, hmd, ok_bind,
      isTokenRecordDelegateArgs, Except.map, Asset.new, Asset.get_metadata,
      Asset.add_edition] <;>
    split <;>
    rfl

/-- A client whose metadata oracle yields a ProgrammableNonFungible record
with no rule set; submissions always succeed. -/
def pnftClient : RpcClient :=
  { decodeMetadataAt := fun _ =>
      .ok { update_authority := .named "UA1".data,
            token_standard := some .ProgrammableNonFungible,
            programmable_config := none, collection := none },
    tokenLargestAccounts := fun _ =>
      .ok [{ address := "TokAcc1".data, amount := "1".data, decimals := 0,
             ui_amount_string := "1".data }],
    latestBlockhash := .ok 3,
    sendAndConfirmAttempt := fun _ _ => .ok ⟨"sig1".data⟩,
    freshKeypair := .named "Fresh".data }

/-- C3 witness: a Transfer-delegate on the pNFT client with an explicit
token account puts the (mint, token) token-record PDA in slot 4. -/
theorem delegate_token_record_slot_witness :
    (delegate_asset_v1_ix pnftClient
      { payer := none, authority := .named "Auth1".data,
        mint := .named "Mint1".data, token := some (.named "Tok1".data),
        delegate := .named "Del1".data,
        delegate_args := .TransferV1 1 none }).map (fun ix => ix.accounts.get? 4) =
      .ok (some (if isTokenRecordDelegateArgs (.TransferV1 1 none) then
        AccountMeta.new (derive_token_record_pda (.named "Mint1".data)
          (.named "Tok1".data)) false
      else
        AccountMeta.new_readonly METAPLEX_PROGRAM_ID false)) :=
  delegate_token_record_slot pnftClient
    { payer := none, authority := .named "Auth1".data,
      mint := .named "Mint1".data, token := some (.named "Tok1".data),
      delegate := .named "Del1".data, delegate_args := .TransferV1 1 none }
    { update_authority := .named "UA1".data,
      token_standard := some .ProgrammableNonFungible,
      programmable_config := none, collection := none }
    (.named "Tok1".data) rfl rfl

/-- C6: the update instruction's token slot (slot 2) holds the
Token-Account Locator's result exactly when the fetched standard is
ProgrammableNonFungible and the caller supplied no token account; in every
other case — including a ProgrammableNonFungible update with a
caller-supplied token account — the slot holds the program-id sentinel
(the caller-supplied account is discarded). -/
theorem update_token_slot (client : RpcClient) (args : UpdateAssetArgsV1)
    (md : Metadata)
    (hmd : client.decodeMetadataAt (derive_metadata_pda args.mint) = .ok md) :
    (∀ t, md.token_standard = some TokenStandard.ProgrammableNonFungible →
      args.token = none →
      get_nft_token_account client args.mint = .ok t →
      (update_asset_v1_ix client args).map (fun ix => ix.accounts.get? 2) =
        .ok (some (AccountMeta.new_readonly t false)))
    ∧ (¬ (md.token_standard = some TokenStandard.ProgrammableNonFungible
          ∧ args.token = none) →
      (update_asset_v1_ix client args).map (fun ix => ix.accounts.get? 2) =
        .ok (some (AccountMeta.new_readonly METAPLEX_PROGRAM_ID false))) := by
  rcases args with ⟨payer, authority, mint, token, delegate_record, update_args, priority⟩
  simp only at hmd ⊢
  constructor
  · intro t hstd htok hloc
    subst htok
    simp only [update_asset_v1_ix, Asset.get_metadata, Asset.new, hmd,
      ok_bind, hstd, hloc, Except.map]
    norm_num
    rfl
  · intro hneg
    simp only [update_asset_v1_ix, Asset.get_metadata, Asset.new, hmd, ok_bind]
    rw [if_neg hneg]
    simp only [pure_eq_ok, ok_bind]
    rfl

/-- C6 witness: a pNFT update with no caller token puts the located holder
account in the token slot. -/
theorem update_token_slot_witness :
    (update_asset_v1_ix pnftClient
      { payer := none, authority := .named "Auth1".data,
        mint := .named "Mint1".data, token := none, delegate_record := none,
        update_args := {}, priority := .None }).map
        (fun ix => ix.accounts.get? 2) =
      .ok (some (AccountMeta.new_readonly (.named "TokAcc1".data) false)) :=
  (update_token_slot pnftClient
    { payer := none, authority := .named "Auth1".data,
      mint := .named "Mint1".data, token := none, delegate_record := none,
      update_args := {}, priority := .None }
    { update_authority := .named "UA1".data,
      token_standard := some .ProgrammableNonFungible,
      programmable_config := none, collection := none } rfl).1
    (.named "TokAcc1".data) rfl rfl rfl

/-- C1: for a transfer whose fetched metadata is ProgrammableNonFungible,
the emitted (and submitted) instruction carries the token-record PDA of
(mint, source_token) in the owner-token-record slot and the token-record
PDA of (mint, destination_token) in the destination-token-record slot; when
the programmable config carries a rule set, the authorization-rules slot
carries that rule-set address. -/
theorem transfer_pnft_token_records (client : RpcClient)
    (args : TransferAssetArgsV1) (md : Metadata) (bh : Nat)
    (hmd : client.decodeMetadataAt (derive_metadata_pda args.mint) = .ok md)
    (hstd : md.token_standard = some TokenStandard.ProgrammableNonFungible)
    (hbh : client.latestBlockhash = .ok bh) :
    ∃ ix : Instruction,
      transfer_asset_v1 client args =
        (retryRun retryDelays (fun i => client.sendAndConfirmAttempt
          { instructions := [ix], fee_payer := args.payer.getD args.authority,
            signers := [args.payer.getD args.authority, args.authority],
            recent_blockhash := bh } i)).result
      ∧ ix.accounts.get? 7 =
          some (AccountMeta.new (derive_token_record_pda args.mint args.source_token) false)
      ∧ ix.accounts.get? 8 =
          some (AccountMeta.new (derive_token_record_pda args.mint args.destination_token) false)
      ∧ (∀ rs, md.programmable_config = some (.V1 (some rs)) →
          ix.accounts.get? 16 = some (AccountMeta.new_readonly rs false)) := by
  rcases args with ⟨payer, authority, mint, source_owner, source_token,
    destination_owner, destination_token, amount, authorization_data⟩
  rcases md with ⟨ua, std, cfg, coll⟩
  simp only at hmd hstd ⊢
  subst hstd
  rcases cfg with _ | ⟨_ | rs⟩ <;>
    simp only [transfer_asset_v1, Nft.new, Nft.get_metadata,
      Nft.get_token_record, hmd, ok_bind, hbh] <;>
    refine ⟨_, rfl, rfl, rfl, ?_⟩ <;>
    intro rs0 h
  · exact absurd h (by simp)
  · exact absurd h (by simp)
  · simp only [Option.some.injEq, ProgrammableConfig.V1.injEq] at h
    subst h
    rfl

/-- A client whose metadata oracle yields a ProgrammableNonFungible record
bound to the rule set "Rules1"; submissions always succeed. -/
def pnftRulesClient : RpcClient :=
  { decodeMetadataAt := fun _ =>
      .ok { update_authority := .named "UA1".data,
            token_standard := some .ProgrammableNonFungible,
            programmable_config := some (.V1 (some (.named "Rules1".data))),
            collection := none },
    tokenLargestAccounts := fun _ => .error .panicked,
    latestBlockhash := .ok 5,
    sendAndConfirmAttempt := fun _ _ => .ok ⟨"sig1".data⟩,
    freshKeypair := .named "Fresh".data }

/-- C1 witness: the pNFT-with-rule-set transfer theorem applied at a
concrete client and argument set. -/
theorem transfer_pnft_token_records_witness :
    ∃ ix : Instruction,
      transfer_asset_v1 pnftRulesClient
        { payer := none, authority := .named "Auth1".data,
          mint := .named "Mint1".data, source_owner := .named "SrcO".data,
          source_token := .named "SrcT".data,
          destination_owner := .named "DstO".data,
          destination_token := .named "DstT".data,
          amount := 1, authorization_data := none } =
        (retryRun retryDelays (fun i => pnftRulesClient.sendAndConfirmAttempt
          { instructions := [ix], fee_payer := .named "Auth1".data,
            signers := [.named "Auth1".data, .named "Auth1".data],
            recent_blockhash := 5 } i)).result
      ∧ ix.accounts.get? 7 =
          some (AccountMeta.new
            (derive_token_record_pda (.named "Mint1".data) (.named "SrcT".data)) false)
      ∧ ix.accounts.get? 8 =
          some (AccountMeta.new
            (derive_token_record_pda (.named "Mint1".data) (.named "DstT".data)) false)
      ∧ (∀ rs, (some (.V1 (some (.named "Rules1".data))) :
            Option ProgrammableConfig) = some (.V1 (some rs)) →
          ix.accounts.get? 16 = some (AccountMeta.new_readonly rs false)) :=
  transfer_pnft_token_records pnftRulesClient
    { payer := none, authority := .named "Auth1".data,
      mint := .named "Mint1".data, source_owner := .named "SrcO".data,
      source_token := .named "SrcT".data,
      destination_owner := .named "DstO".data,
      destination_token := .named "DstT".data,
      amount := 1, authorization_data := none }
    { update_authority := .named "UA1".data,
      token_standard := some .ProgrammableNonFungible,
      programmable_config := some (.V1 (some (.named "Rules1".data))),
      collection := none } 5 rfl rfl rfl

/-- C2 (amended): the transfer assembler fills the edition slot with the
derived edition address unconditionally — for every fetched token standard,
fungible standards included — because the builder receives the eagerly
derived edition before the metadata is even fetched. -/
theorem transfer_edition_always (client : RpcClient)
    (args : TransferAssetArgsV1) (md : Metadata) (bh : Nat)
    (hmd : client.decodeMetadataAt (derive_metadata_pda args.mint) = .ok md)
    (hbh : client.latestBlockhash = .ok bh) :
    ∃ ix : Instruction,
      transfer_asset_v1 client args =
        (retryRun retryDelays (fun i => client.sendAndConfirmAttempt
          { instructions := [ix], fee_payer := args.payer.getD args.authority,
            signers := [args.payer.getD args.authority, args.authority],
            recent_blockhash := bh } i)).result
      ∧ ix.accounts.get? 6 =
          some (AccountMeta.new_readonly (derive_edition_pda args.mint) false) := by
  rcases args with ⟨payer, authority, mint, source_owner, source_token,
    destination_owner, destination_token, amount, authorization_data⟩
  rcases md with ⟨ua, std, cfg, coll⟩
  simp only at hmd ⊢
  by_cases hstd : std = some TokenStandard.ProgrammableNonFungible
  · subst hstd
    rcases cfg with _ | ⟨_ | rs⟩ <;>
      simp only [transfer_asset_v1, Nft.new, Nft.get_metadata,
        Nft.get_token_record, hmd, ok_bind, hbh] <;>
      exact ⟨_, rfl, rfl⟩
  · simp only [transfer_asset_v1, Nft.new, Nft.get_metadata,
      Nft.get_token_record, hmd, ok_bind, hbh]
    rw [if_neg hstd]
    exact ⟨_, rfl, rfl⟩

/-- A client whose metadata oracle yields a plain Fungible record and whose
submission collaborator accepts a transaction exactly when its (single)
instruction carries the derived edition of "Mint1" in the edition slot —
so a successful submission certifies that the edition was included. -/
def fungibleEditionProbeClient : RpcClient :=
  { decodeMetadataAt := fun _ =>
      .ok { update_authority := .named "UA1".data,
            token_standard := some .Fungible,
            programmable_config := none, collection := none },
    tokenLargestAccounts := fun _ => .error .panicked,
    latestBlockhash := .ok 5,
    sendAndConfirmAttempt := fun tx _ =>
      if tx.instructions.map (fun ix => ix.accounts.get? 6) =
          [some (AccountMeta.new_readonly
            (derive_edition_pda (.named "Mint1".data)) false)] then
        .ok ⟨"editionWasIncluded".data⟩
      else
        .error (.transport "edition slot empty".data),
    freshKeypair := .named "Fresh".data }

/-- C2 counterexample: transferring an asset whose fetched standard is
Fungible submits an instruction whose edition slot holds the derived
edition address (the probe client accepts only such instructions, and the
edition address differs from the sentinel program id) — the claim that the
edition slot is omitted for clearly-fungible standards is false. -/
theorem transfer_edition_fungible_counterexample :
    transfer_asset_v1 fungibleEditionProbeClient
      { payer := none, authority := .named "Auth1".data,
        mint := .named "Mint1".data, source_owner := .named "SrcO".data,
        source_token := .named "SrcT".data,
        destination_owner := .named "DstO".data,
        destination_token := .named "DstT".data,
        amount := 1, authorization_data := none } =
      .ok ⟨"editionWasIncluded".data⟩
    ∧ derive_edition_pda (.named "Mint1".data) ≠ METAPLEX_PROGRAM_ID := by
  exact ⟨rfl, by decide⟩

/-- C2 witness: the always-includes-edition theorem applied to the concrete
fungible client. -/
theorem transfer_edition_always_witness :
    ∃ ix : Instruction,
      transfer_asset_v1 fungibleEditionProbeClient
        { payer := none, authority := .named "Auth1".data,
          mint := .named "Mint1".data, source_owner := .named "SrcO".data,
          source_token := .named "SrcT".data,
          destination_owner := .named "DstO".data,
          destination_token := .named "DstT".data,
          amount := 1, authorization_data := none } =
        (retryRun retryDelays (fun i => fungibleEditionProbeClient.sendAndConfirmAttempt
          { instructions := [ix], fee_payer := .named "Auth1".data,
            signers := [.named "Auth1".data, .named "Auth1".data],
            recent_blockhash := 5 } i)).result
      ∧ ix.accounts.get? 6 =
          some (AccountMeta.new_readonly (derive_edition_pda (.named "Mint1".data)) false) :=
  transfer_edition_always fungibleEditionProbeClient
    { payer := none, authority := .named "Auth1".data,
      mint := .named "Mint1".data, source_owner := .named "SrcO".data,
      source_token := .named "SrcT".data,
      destination_owner := .named "DstO".data,
      destination_token := .named "DstT".data,
      amount := 1, authorization_data := none }
    { update_authority := .named "UA1".data, token_standard := some .Fungible,
      programmable_config := none, collection := none } 5 rfl rfl

/-- An associated token account is never its own owner: the derivation
adds structure, so the ATA of (owner, mint) differs from owner. -/
theorem ata_ne_owner (owner mint : Pubkey) :
    get_associated_token_address owner mint ≠ owner := by
  intro h
  have hs := congrArg sizeOf h
  simp only [get_associated_token_address] at hs
  have : sizeOf (Pubkey.associatedTokenAccount owner mint) =
      1 + sizeOf owner + sizeOf mint := rfl
  omega

/-- C4: in the create+mint pair, the mint instruction's destination token
slot holds the associated token account of (receiver, mint), and its
token-record slot holds the token-record PDA derived from (mint, that
associated token account) — which differs from the PDA that would be
derived from (mint, receiver). -/
theorem mint_destination_token (client : RpcClient) (args : MintAssetArgsV1)
    (bh : Nat)
    (hbh : client.latestBlockhash = .ok bh)
    (hd : ∀ d, args.mint_decimals = some d → d ≤ 9)
    (hamt : args.asset_data.token_standard = .NonFungible
        ∨ args.asset_data.token_standard = .ProgrammableNonFungible →
      args.amount = 1) :
    ∃ create_ix mint_ix : Instruction,
      mint_asset_v1 client args =
        ((retryRun retryDelays (fun i => client.sendAndConfirmAttempt
          { instructions := [create_ix, mint_ix],
            fee_payer := args.payer.getD args.authority,
            signers := [args.payer.getD args.authority, args.authority,
              args.mint.getD client.freshKeypair],
            recent_blockhash := bh } i)).result >>= fun sig =>
          Except.ok { signature := sig, mint := args.mint.getD client.freshKeypair })
      ∧ mint_ix.accounts.get? 0 =
          some (AccountMeta.new (get_associated_token_address args.receiver
            (args.mint.getD client.freshKeypair)) false)
      ∧ mint_ix.accounts.get? 4 =
          some (AccountMeta.new (derive_token_record_pda
            (args.mint.getD client.freshKeypair)
            (get_associated_token_address args.receiver
              (args.mint.getD client.freshKeypair))) false)
      ∧ derive_token_record_pda (args.mint.getD client.freshKeypair)
            (get_associated_token_address args.receiver
              (args.mint.getD client.freshKeypair)) ≠
          derive_token_record_pda (args.mint.getD client.freshKeypair)
            args.receiver := by
  rcases args with ⟨payer, authority, receiver, mintOpt, asset_data,
    print_supply, mint_decimals, amount, authorization_data⟩
  simp only at hd hamt hbh ⊢
  have hne : derive_token_record_pda (mintOpt.getD client.freshKeypair)
      (get_associated_token_address receiver (mintOpt.getD client.freshKeypair)) ≠
      derive_token_record_pda (mintOpt.getD client.freshKeypair) receiver := by
    intro h
    simp only [derive_token_record_pda, Pubkey.tokenRecordPda.injEq] at h
    exact ata_ne_owner receiver (mintOpt.getD client.freshKeypair) h.2
  by_cases hnf : asset_data.token_standard = TokenStandard.NonFungible
      ∨ asset_data.token_standard = TokenStandard.ProgrammableNonFungible
  · have h1 := hamt hnf
    subst h1
    rcases mint_decimals with _ | d
    · simp only [mint_asset_v1, hbh, ok_bind, pure_eq_ok]
      rw [if_pos hnf]
      exact ⟨_, _, rfl, rfl, rfl, hne⟩
    · have hd9 : ¬ 9 < d := by have := hd d rfl; omega
      simp only [mint_asset_v1, hbh, ok_bind, pure_eq_ok]
      rw [if_neg hd9, if_pos hnf]
      exact ⟨_, _, rfl, rfl, rfl, hne⟩
  · rcases mint_decimals with _ | d
    · simp only [mint_asset_v1, hbh, ok_bind, pure_eq_ok]
      rw [if_neg hnf]
      exact ⟨_, _, rfl, rfl, rfl, hne⟩
    · have hd9 : ¬ 9 < d := by have := hd d rfl; omega
      simp only [mint_asset_v1, hbh, ok_bind, pure_eq_ok]
      rw [if_neg hd9, if_neg hnf]
      exact ⟨_, _, rfl, rfl, rfl, hne⟩

/-- Concrete create+mint request: a NonFungible with a caller-supplied
mint keypair. -/
def mintWitnessArgs : MintAssetArgsV1 :=
  { payer := none, authority := .named "Auth1".data,
    receiver := .named "Recv1".data, mint := some (.named "MintK".data),
    asset_data :=
      { name := "Foo".data, symbol := "FOO".data, uri := "hxy".data,
        seller_fee_basis_points := 500, creators := none,
        primary_sale_happened := false, is_mutable := true,
        token_standard := .NonFungible, collection := none, uses := none,
        collection_details := none, rule_set := none },
    print_supply := some .Zero, mint_decimals := none, amount := 1,
    authorization_data := none }

/-- C4 witness: the destination-token theorem applied at the concrete
request. -/
theorem mint_destination_token_witness :
    ∃ create_ix mint_ix : Instruction,
      mint_asset_v1 pnftClient mintWitnessArgs =
        ((retryRun retryDelays (fun i => pnftClient.sendAndConfirmAttempt
          { instructions := [create_ix, mint_ix],
            fee_payer := .named "Auth1".data,
            signers := [.named "Auth1".data, .named "Auth1".data,
              .named "MintK".data],
            recent_blockhash := 3 } i)).result >>= fun sig =>
          Except.ok { signature := sig, mint := .named "MintK".data })
      ∧ mint_ix.accounts.get? 0 =
          some (AccountMeta.new (get_associated_token_address
            (.named "Recv1".data) (.named "MintK".data)) false)
      ∧ mint_ix.accounts.get? 4 =
          some (AccountMeta.new (derive_token_record_pda (.named "MintK".data)
            (get_associated_token_address (.named "Recv1".data)
              (.named "MintK".data))) false)
      ∧ derive_token_record_pda (.named "MintK".data)
            (get_associated_token_address (.named "Recv1".data)
              (.named "MintK".data)) ≠
          derive_token_record_pda (.named "MintK".data) (.named "Recv1".data) :=
  mint_destination_token pnftClient mintWitnessArgs 3 rfl
    (by intro d h; cases h) (fun _ => rfl)

/-- C5 (amended): verify-creator, unverify-creator and unverify-collection
reject an asset whose fetched standard is not NonFungible, not
ProgrammableNonFungible and not absent — that is, Fungible, FungibleAsset
or NonFungibleEdition — with their validation errors, regardless of the
submission collaborator (no write is attempted); the verify-collection
path performs no such check and is excluded. -/
theorem verify_unverify_fungible_reject (client : RpcClient)
    (authority mint collection_mint : Pubkey) (is_delegate : Bool)
    (md : Metadata)
    (hmd : client.decodeMetadataAt (derive_metadata_pda mint) = .ok md)
    (hstd : ¬ (md.token_standard = some TokenStandard.NonFungible
        ∨ md.token_standard = some TokenStandard.ProgrammableNonFungible
        ∨ md.token_standard = none)) :
    verify_creator_v1 client { authority := authority, mint := mint } =
      .error .onlyNonFungibleCreators
    ∧ unverify_creator_v1 client { authority := authority, mint := mint } =
      .error .onlyNonFungibleCreators
    ∧ unverify_collection_v1 client
        { authority := authority, mint := mint,
          collection_mint := collection_mint, is_delegate := is_delegate } =
      .error .unverifyOnlyNonFungible := by
  rcases md with ⟨ua, std, cfg, coll⟩
  simp only at hmd hstd
  rcases std with _ | s
  · exact absurd (Or.inr (Or.inr rfl)) hstd
  · cases s
    case NonFungible => exact absurd (Or.inl rfl) hstd
    case ProgrammableNonFungible => exact absurd (Or.inr (Or.inl rfl)) hstd
    all_goals
      refine ⟨?_, ?_, ?_⟩ <;>
      simp only [verify_creator_v1, unverify_creator_v1,
        unverify_collection_v1, unverify_collection_v1_ix,
        Asset.new, Asset.get_metadata, hmd, ok_bind] <;>
      rfl

/-- A client whose metadata oracle yields a Fungible record and whose
submission collaborator accepts everything. -/
def fungibleVerifyClient : RpcClient :=
  { decodeMetadataAt := fun _ =>
      .ok { update_authority := .named "UA1".data,
            token_standard := some .Fungible,
            programmable_config := none, collection := none },
    tokenLargestAccounts := fun _ => .error .panicked,
    latestBlockhash := .ok 9,
    sendAndConfirmAttempt := fun _ _ => .ok ⟨"collVerified".data⟩,
    freshKeypair := .named "Fresh".data }

/-- C5 counterexample: verifying a collection on an asset whose fetched
standard is Fungible does not fail — the operation builds its instruction
and the submission succeeds, so the claimed validation rejection does not
exist on the verify-collection path. -/
theorem verify_collection_fungible_counterexample :
    fungibleVerifyClient.decodeMetadataAt
        (derive_metadata_pda (.named "Mint1".data)) =
      .ok { update_authority := .named "UA1".data,
            token_standard := some .Fungible,
            programmable_config := none, collection := none }
    ∧ verify_collection_v1 fungibleVerifyClient
        { authority := .named "Auth1".data, mint := .named "Mint1".data,
          collection_mint := .named "Coll1".data, is_delegate := false } =
      .ok ⟨"collVerified".data⟩ :=
  ⟨rfl, rfl⟩

/-- C5 witness: the fungible-rejection theorem applied at the concrete
fungible client. -/
theorem verify_unverify_fungible_reject_witness :
    verify_creator_v1 fungibleVerifyClient
      { authority := .named "Auth1".data, mint := .named "Mint1".data } =
      .error .onlyNonFungibleCreators
    ∧ unverify_creator_v1 fungibleVerifyClient
      { authority := .named "Auth1".data, mint := .named "Mint1".data } =
      .error .onlyNonFungibleCreators
    ∧ unverify_collection_v1 fungibleVerifyClient
        { authority := .named "Auth1".data, mint := .named "Mint1".data,
          collection_mint := .named "Coll1".data, is_delegate := false } =
      .error .unverifyOnlyNonFungible :=
  verify_unverify_fungible_reject fungibleVerifyClient
    (.named "Auth1".data) (.named "Mint1".data) (.named "Coll1".data) false
    { update_authority := .named "UA1".data, token_standard := some .Fungible,
      programmable_config := none, collection := none }
    rfl (by decide)

/-- C8: an update with a priority level submits a transaction holding
exactly three instructions in order — set-compute-unit-limit with the
constant 50 000, set-compute-unit-price with the level's mapped price
(None 20, Low 20 000, Medium 200 000, High 1 000 000, Max 2 000 000), then
the update instruction. -/
theorem update_priority_three_instructions (client : RpcClient)
    (args : UpdateAssetArgsV1) (bh : Nat) (ix : Instruction)
    (hix : update_asset_v1_ix client args = .ok ix)
    (hbh : client.latestBlockhash = .ok bh) :
    update_asset_v1 client args =
      client.sendAndConfirmAttempt
        { instructions := [set_compute_unit_limit UPDATE_COMPUTE_UNITS,
            set_compute_unit_price (match args.priority with
              | .None => 20
              | .Low => 20000
              | .Medium => 200000
              | .High => 1000000
              | .Max => 2000000), ix],
          fee_payer := args.payer.getD args.authority,
          signers := [args.payer.getD args.authority, args.authority],
          recent_blockhash := bh } 1
    ∧ UPDATE_COMPUTE_UNITS = 50000 := by
  constructor
  · rcases args with ⟨payer, authority, mint, token, delegate_record,
      update_args, priority⟩
    simp only at hix ⊢
    simp only [update_asset_v1, hix, ok_bind, send_and_confirm_tx, hbh,
      mkTransaction]
  · rfl

/-- The instruction the concrete pNFT update assembles. -/
def updWitnessIx : Instruction :=
  (update_asset_v1_ix pnftClient
    { payer := none, authority := .named "Auth1".data,
      mint := .named "Mint1".data, token := none, delegate_record := none,
      update_args := {}, priority := .High }).toOption.getD
    { program_id := METAPLEX_PROGRAM_ID, accounts := [],
      data := .verifyCreatorV1 }

/-- C8 witness: a High-priority pNFT update on the concrete client submits
limit-50000, price-1000000, then the update instruction. -/
theorem update_priority_three_instructions_witness :
    update_asset_v1 pnftClient
      { payer := none, authority := .named "Auth1".data,
        mint := .named "Mint1".data, token := none, delegate_record := none,
        update_args := {}, priority := .High } =
      pnftClient.sendAndConfirmAttempt
        { instructions := [set_compute_unit_limit UPDATE_COMPUTE_UNITS,
            set_compute_unit_price (match Priority.High with
              | .None => 20
              | .Low => 20000
              | .Medium => 200000
              | .High => 1000000
              | .Max => 2000000), updWitnessIx],
          fee_payer := .named "Auth1".data,
          signers := [.named "Auth1".data, .named "Auth1".data],
          recent_blockhash := 3 } 1
    ∧ UPDATE_COMPUTE_UNITS = 50000 :=
  update_priority_three_instructions pnftClient
    { payer := none, authority := .named "Auth1".data,
      mint := .named "Mint1".data, token := none, delegate_record := none,
      update_args := {}, priority := .High } 3 updWitnessIx rfl rfl

/-- One unfolding step of splitChar on a cons cell. -/
theorem splitChar_cons (sep c : Char) (rest : Str) :
    splitChar sep (c :: rest) =
      if c = sep then [] :: splitChar sep rest
      else match splitChar sep rest with
        | [] => [[c]]
        | h :: t => (c :: h) :: t := rfl

/-- Splitting a separator-free string yields that string as the single
fragment. -/
theorem splitChar_not_mem (sep : Char) (s : Str) (h : sep ∉ s) :
    splitChar sep s = [s] := by
  induction s with
  | nil => rfl
  | cons c rest ih =>
    have hc : ¬ c = sep := fun hcs => h (hcs ▸ List.mem_cons_self c rest)
    have hrest : sep ∉ rest := fun hm => h (List.mem_cons_of_mem c hm)
    rw [splitChar_cons, if_neg hc, ih hrest]

/-- Splitting distributes over the first separator occurrence. -/
theorem splitChar_append (sep : Char) (xs ys : Str) (h : sep ∉ xs) :
    splitChar sep (xs ++ sep :: ys) = xs :: splitChar sep ys := by
  induction xs with
  | nil => rw [List.nil_append, splitChar_cons, if_pos rfl]
  | cons c rest ih =>
    have hc : ¬ c = sep := fun hcs => h (hcs ▸ List.mem_cons_self c rest)
    have hrest : sep ∉ rest := fun hm => h (List.mem_cons_of_mem c hm)
    rw [List.cons_append, splitChar_cons, if_neg hc, ih hrest]

/-- Splitting a separator-join of separator-free fragments recovers the
fragments. -/
theorem splitChar_joinSep (sep : Char) (pieces : List Str)
    (hne : pieces ≠ []) (h : ∀ p ∈ pieces, sep ∉ p) :
    splitChar sep (joinSep sep pieces) = pieces := by
  induction pieces with
  | nil => exact absurd rfl hne
  | cons p rest ih =>
    rcases rest with _ | ⟨q, rest⟩
    · exact splitChar_not_mem sep p (h p (List.mem_cons_self p []))
    · have hp : sep ∉ p := h p (List.mem_cons_self p _)
      have hrest : ∀ r ∈ q :: rest, sep ∉ r :=
        fun r hr => h r (List.mem_cons_of_mem p hr)
      simp only [joinSep, splitChar_append sep p _ hp,
        ih (by simp) hrest]

/-- The separator does not occur in a separator-join of separator-free,
other-separator-free fragments. -/
theorem not_mem_joinSep (x sep : Char) (pieces : List Str)
    (hx : x ≠ sep) (h : ∀ p ∈ pieces, x ∉ p) :
    x ∉ joinSep sep pieces := by
  induction pieces with
  | nil => simp [joinSep]
  | cons p rest ih =>
    rcases rest with _ | ⟨q, rest⟩
    · exact h p (List.mem_cons_self p [])
    · have hp : x ∉ p := h p (List.mem_cons_self p _)
      have hrest := ih (fun r hr => h r (List.mem_cons_of_mem p hr))
      simp only [joinSep, List.mem_append, List.mem_cons]
      rintro (hm | hm | hm)
      · exact hp hm
      · exact hx hm
      · exact hrest hm

/-- digitChar of a digit value is a digit character. -/
theorem isDigitChar_digitChar (d : Nat) (h : d < 10) :
    isDigitChar (digitChar d) = true := by
  interval_cases d <;> decide

/-- charVal inverts digitChar on digit values. -/
theorem charVal_digitChar (d : Nat) (h : d < 10) :
    charVal (digitChar d) = d := by
  interval_cases d <;> decide

/-- The rendering loop computes the reversed base-10 digit string. -/
theorem natToCharsAux_eq (fuel : Nat) : ∀ n acc, 1 ≤ n → n ≤ fuel →
    natToCharsAux fuel n acc =
      ((Nat.digits 10 n).map digitChar).reverse ++ acc := by
  induction fuel with
  | zero => intro n acc h1 h2; omega
  | succ fuel ih =>
    intro n acc h1 h2
    unfold natToCharsAux
    by_cases hn2 : n / 10 = 0
    · rw [if_pos hn2]
      have hlt : n < 10 := by omega
      rw [Nat.digits_def' (by norm_num : (1:Nat) < 10) (by omega), hn2]
      simp [Nat.mod_eq_of_lt hlt]
    · rw [if_neg hn2]
      have h1b : 1 ≤ n / 10 := Nat.pos_of_ne_zero hn2
      have h2b : n / 10 ≤ fuel := by
        have := Nat.div_lt_self (by omega : 0 < n) (by norm_num : (1:Nat) < 10)
        omega
      rw [ih (n / 10) (digitChar (n % 10) :: acc) h1b h2b]
      conv_rhs => rw [Nat.digits_def' (by norm_num : (1:Nat) < 10) (by omega : 0 < n)]
      simp

/-- Rendering zero gives "0". -/
theorem natToChars_zero : natToChars 0 = ['0'] := rfl

/-- Rendering a positive number gives its reversed digit list. -/
theorem natToChars_eq_digits (n : Nat) (h : n ≠ 0) :
    natToChars n = ((Nat.digits 10 n).map digitChar).reverse := by
  unfold natToChars
  rw [natToCharsAux_eq (n + 1) n [] (by omega) (by omega), List.append_nil]

/-- Every character of a rendered number is a digit. -/
theorem natToChars_all_digits (n : Nat) :
    ∀ c ∈ natToChars n, isDigitChar c = true := by
  intro c hc
  by_cases h0 : n = 0
  · subst h0
    rw [natToChars_zero] at hc
    simp only [List.mem_singleton] at hc
    subst hc; decide
  · rw [natToChars_eq_digits n h0] at hc
    simp only [List.mem_reverse, List.mem_map] at hc
    obtain ⟨d, hd, rfl⟩ := hc
    exact isDigitChar_digitChar d (Nat.digits_lt_base (by norm_num) hd)

/-- A character that is not a decimal digit never occurs in a rendered
number. -/
theorem not_mem_natToChars (x : Char) (n : Nat) (hx : isDigitChar x = false) :
    x ∉ natToChars n := by
  intro hm
  have := natToChars_all_digits n x hm
  rw [hx] at this
  exact Bool.false_ne_true this

/-- A rendered number is nonempty. -/
theorem natToChars_ne_nil (n : Nat) : natToChars n ≠ [] := by
  by_cases h0 : n = 0
  · subst h0; rw [natToChars_zero]; simp
  · rw [natToChars_eq_digits n h0]
    simp only [ne_eq, List.reverse_eq_nil_iff, List.map_eq_nil_iff]
    exact Nat.digits_ne_nil_iff_ne_zero.mpr h0

/-- Folding the decimal accumulator over mapped digit characters equals
folding over the digit values. -/
theorem foldl_map_digitChar (l : List Nat) (hl : ∀ d ∈ l, d < 10) :
    ∀ a, (l.map digitChar).foldl (fun acc c => acc * 10 + charVal c) a =
      l.foldl (fun acc d => acc * 10 + d) a := by
  induction l with
  | nil => intro a; rfl
  | cons d t ih =>
    intro a
    have hd : d < 10 := hl d (List.mem_cons_self d t)
    simp only [List.map_cons, List.foldl_cons,
      charVal_digitChar d hd]
    exact ih (fun e he => hl e (List.mem_cons_of_mem d he)) _

/-- The reverse-foldl decimal accumulator computes the little-endian digit
value. -/
theorem foldl_reverse_ofDigits (l : List Nat) :
    l.reverse.foldl (fun acc d => acc * 10 + d) 0 = Nat.ofDigits 10 l := by
  rw [List.foldl_reverse]
  induction l with
  | nil => simp [Nat.ofDigits]
  | cons d t ih =>
    simp only [List.foldr_cons, ih, Nat.ofDigits_cons]
    ring

/-- Parsing a rendered number recovers the number. -/
theorem parseNatCore_natToChars (n : Nat) :
    parseNatCore (natToChars n) = some n := by
  by_cases h0 : n = 0
  · subst h0; decide
  · have hall : (natToChars n).all isDigitChar = true := by
      rw [List.all_eq_true]
      exact natToChars_all_digits n
    have hne := natToChars_ne_nil n
    simp only [parseNatCore, if_pos (And.intro hne hall)]
    rw [natToChars_eq_digits n h0]
    rw [show ((Nat.digits 10 n).map digitChar).reverse =
        ((Nat.digits 10 n).reverse).map digitChar from (List.map_reverse _ _).symm]
    rw [foldl_map_digitChar ((Nat.digits 10 n).reverse)
      (fun d hd => Nat.digits_lt_base (by norm_num) (List.mem_reverse.mp hd)) 0]
    rw [foldl_reverse_ofDigits, Nat.ofDigits_digits]

/-- A rendered number does not start with a plus sign. -/
theorem stripPlusSign_natToChars (n : Nat) :
    stripPlusSign (natToChars n) = natToChars n := by
  rcases hs : natToChars n with _ | ⟨c, rest⟩
  · rfl
  · have hc : isDigitChar c = true := by
      have := natToChars_all_digits n c
      rw [hs] at this
      exact this (List.mem_cons_self c rest)
    have hcp : c ≠ '+' := by
      intro h; subst h; exact absurd hc (by decide)
    unfold stripPlusSign
    split
    · rename_i r heq
      injection heq with h1 h2
      exact absurd h1 hcp
    · rfl

/-- Parsing a rendered bounded number recovers it. -/
theorem parseUInt_natToChars (bound n : Nat) (h : n ≤ bound) :
    parseUInt bound (natToChars n) = some n := by
  simp only [parseUInt, stripPlusSign_natToChars, parseNatCore_natToChars,
    if_pos h]

/-- Parsing a rendered bool recovers it. -/
theorem parseBool_boolToChars (b : Bool) :
    parseBool (boolToChars b) = some b := by
  cases b <;> decide

/-- A character outside the base-58 alphabet does not occur in a valid
base-58 string. -/
theorem not_mem_of_base58 (x : Char) (a : Str) (ha : isBase58Str a = true)
    (hx : isBase58Char x = false) : x ∉ a := by
  intro hm
  simp only [isBase58Str, Bool.and_eq_true, List.all_eq_true] at ha
  have := ha.2 x hm
  rw [hx] at this
  exact Bool.false_ne_true this

/-- A character not in a rendered bool. -/
theorem not_mem_boolToChars (x : Char) (b : Bool)
    (ht : x ∉ "true".data) (hf : x ∉ "false".data) : x ∉ boolToChars b := by
  cases b
  · exact hf
  · exact ht

/-- A separator-like character does not occur in a rendered creator
fragment. -/
theorem not_mem_creatorToChars (x : Char) (c : Creator) (a : Str)
    (ha : c.address = .named a) (hb : isBase58Str a = true)
    (hx58 : isBase58Char x = false) (hxd : isDigitChar x = false)
    (hxc : x ≠ ':') (hxt : x ∉ "true".data) (hxf : x ∉ "false".data) :
    x ∉ creatorToChars c := by
  rcases c with ⟨addr, verified, share⟩
  simp only at ha
  subst ha
  simp only [creatorToChars, Pubkey.toChars]
  intro hm
  rcases List.mem_append.mp hm with h2 | h
  · rcases List.mem_append.mp h2 with h | h
    · exact not_mem_of_base58 x a hb hx58 h
    · rcases List.mem_cons.mp h with h | h
      · exact hxc h
      · exact not_mem_boolToChars x verified hxt hxf h
  · rcases List.mem_cons.mp h with h | h
    · exact hxc h
    · exact not_mem_natToChars x share hxd h

/-- Parsing a rendered creator recovers it. -/
theorem parseCreator_creatorToChars (c : Creator) (a : Str)
    (ha : c.address = .named a) (hb : isBase58Str a = true)
    (hsh : c.share ≤ 255) :
    parseCreator (creatorToChars c) = .ok c := by
  rcases c with ⟨addr, verified, share⟩
  simp only at ha hsh
  subst ha
  have hsplit : splitChar ':' (creatorToChars ⟨.named a, verified, share⟩) =
      [a, boolToChars verified, natToChars share] := by
    simp only [creatorToChars, Pubkey.toChars]
    rw [List.append_assoc, List.cons_append]
    rw [splitChar_append ':' a _ (not_mem_of_base58 ':' a hb (by decide)),
      splitChar_append ':' (boolToChars verified) _
        (not_mem_boolToChars ':' verified (by decide) (by decide)),
      splitChar_not_mem ':' (natToChars share)
        (not_mem_natToChars ':' share (by decide))]
  have hp8 : parseU8 (natToChars share) = some share :=
    parseUInt_natToChars (2 ^ 8 - 1) share hsh
  simp only [parseCreator, hsplit, strToPubkey, hb, eq_self_iff_true, if_true,
    parseBool_boolToChars, hp8, ok_bind, pure_eq_ok]

/-- Parsing the rendered creator fragments recovers the creator list. -/
theorem mapM_parseCreator (cs : List Creator)
    (h : ∀ c ∈ cs, (∃ a, c.address = .named a ∧ isBase58Str a = true)
      ∧ c.share ≤ 255) :
    (cs.map creatorToChars).mapM parseCreator = .ok cs := by
  induction cs with
  | nil => rfl
  | cons c rest ih =>
    obtain ⟨⟨a, ha, hb⟩, hsh⟩ := h c (List.mem_cons_self c rest)
    rw [List.map_cons, List.mapM_cons,
      parseCreator_creatorToChars c a ha hb hsh, ok_bind,
      ih (fun d hd => h d (List.mem_cons_of_mem c hd)), ok_bind]
    rfl

/-- Validity of an address payload for the check-module round trip: a
parsed (named) key with a valid base-58 rendering. -/
def wfAddress : Pubkey → Prop
  | .named a => isBase58Str a = true
  | _ => False

instance wfAddress.dec (k : Pubkey) : Decidable (wfAddress k) :=
  match k with
  | .named a => inferInstanceAs (Decidable (isBase58Str a = true))
  | .metadataPda _ => inferInstanceAs (Decidable False)
  | .editionPda _ => inferInstanceAs (Decidable False)
  | .tokenRecordPda _ _ => inferInstanceAs (Decidable False)
  | .metadataDelegateRecordPda _ _ _ _ => inferInstanceAs (Decidable False)
  | .associatedTokenAccount _ _ => inferInstanceAs (Decidable False)

/-- Canonical-form condition for a metadata value: the string payloads
carry no '=' (the renderer would not escape it), numbers are within their
Rust integer ranges, and creator addresses are parsed base-58 keys. -/
def wfMetadataValue : MetadataValue → Prop
  | .Name s => '=' ∉ s
  | .Symbol s => '=' ∉ s
  | .Uri s => '=' ∉ s
  | .SellerFeeBasisPoints v => v ≤ 65535
  | .Creators cs => cs ≠ [] ∧ ∀ c ∈ cs, wfAddress c.address ∧ c.share ≤ 255
  | .UpdateAuthority s => '=' ∉ s
  | .PrimarySaleHappened _ => True
  | .IsMutable _ => True
  | .TokenStandard s => '=' ∉ s
  | .CollectionParent s => '=' ∉ s
  | .CollectionVerified _ => True
  | .RuleSet s => '=' ∉ s

/-- C10 (amended): the round trip holds for canonical renderings — for
every well-formed metadata value, parsing its rendering returns the value,
and hence rendering after parsing is the identity on exactly the canonical
strings (the renderings of well-formed values). -/
theorem metadata_value_roundtrip (v : MetadataValue)
    (hwf : wfMetadataValue v) :
    MetadataValue.from_str v.toChars = .ok v
    ∧ (MetadataValue.from_str v.toChars).map MetadataValue.toChars =
      .ok v.toChars := by
  have main : MetadataValue.from_str v.toChars = .ok v := by
    rcases v with s | s | s | n | cs | s | b | b | s | s | b | s
    · show MetadataValue.from_str ("name".data ++ '=' :: s) = .ok (.Name s)
      simp only [MetadataValue.from_str,
        splitChar_append '=' "name".data s (by decide),
        splitChar_not_mem '=' s hwf]
      rfl
    · show MetadataValue.from_str ("symbol".data ++ '=' :: s) = .ok (.Symbol s)
      simp only [MetadataValue.from_str,
        splitChar_append '=' "symbol".data s (by decide),
        splitChar_not_mem '=' s hwf]
      rfl
    · show MetadataValue.from_str ("uri".data ++ '=' :: s) = .ok (.Uri s)
      simp only [MetadataValue.from_str,
        splitChar_append '=' "uri".data s (by decide),
        splitChar_not_mem '=' s hwf]
      rfl
    · show MetadataValue.from_str ("sfbp".data ++ '=' :: natToChars n) =
        .ok (.SellerFeeBasisPoints n)
      have hp : parseU16 (natToChars n) = some n :=
        parseUInt_natToChars (2 ^ 16 - 1) n hwf
      simp only [MetadataValue.from_str,
        splitChar_append '=' "sfbp".data (natToChars n) (by decide),
        splitChar_not_mem '=' (natToChars n) (not_mem_natToChars '=' n (by decide))]
      show (match parseU16 (natToChars n) with
        | some v2 => Except.ok (MetadataValue.SellerFeeBasisPoints v2)
        | none => Except.error MbError.valueParseFailed) =
        .ok (.SellerFeeBasisPoints n)
      rw [hp]
    · obtain ⟨hne, hall⟩ := hwf
      have hall2 : ∀ c ∈ cs,
          (∃ a, c.address = .named a ∧ isBase58Str a = true)
          ∧ c.share ≤ 255 := by
        intro c hc
        obtain ⟨hwa, hsh⟩ := hall c hc
        refine ⟨?_, hsh⟩
        revert hwa
        rcases c.address with a | m | m | ⟨m, t⟩ | ⟨m, r, u, d⟩ | ⟨o, m⟩
        · intro hwa; exact ⟨a, rfl, hwa⟩
        all_goals (intro hwa; exact False.elim hwa)
      have hpieces_ne : cs.map creatorToChars ≠ [] := by
        simpa using hne
      have hnoEq : ∀ p ∈ cs.map creatorToChars, '=' ∉ p := by
        intro p hp
        obtain ⟨c, hc, rfl⟩ := List.mem_map.mp hp
        obtain ⟨⟨a, ha, hb⟩, _⟩ := hall2 c hc
        exact not_mem_creatorToChars '=' c a ha hb (by decide) (by decide)
          (by decide) (by decide) (by decide)
      have hnoComma : ∀ p ∈ cs.map creatorToChars, ',' ∉ p := by
        intro p hp
        obtain ⟨c, hc, rfl⟩ := List.mem_map.mp hp
        obtain ⟨⟨a, ha, hb⟩, _⟩ := hall2 c hc
        exact not_mem_creatorToChars ',' c a ha hb (by decide) (by decide)
          (by decide) (by decide) (by decide)
      have hjoin : '=' ∉ joinSep ',' (cs.map creatorToChars) :=
        not_mem_joinSep '=' ',' _ (by decide) hnoEq
      show MetadataValue.from_str
          ("creators".data ++ '=' :: joinSep ',' (cs.map creatorToChars)) =
        .ok (.Creators cs)
      simp only [MetadataValue.from_str,
        splitChar_append '=' "creators".data _ (by decide),
        splitChar_not_mem '=' _ hjoin]
      show (match (splitChar ','
            (joinSep ',' (cs.map creatorToChars))).mapM parseCreator with
        | .ok creators => Except.ok (MetadataValue.Creators creators)
        | .error e => Except.error e) = .ok (.Creators cs)
      rw [splitChar_joinSep ',' _ hpieces_ne hnoComma,
        mapM_parseCreator cs hall2]
    · show MetadataValue.from_str ("update_authority".data ++ '=' :: s) =
        .ok (.UpdateAuthority s)
      simp only [MetadataValue.from_str,
        splitChar_append '=' "update_authority".data s (by decide),
        splitChar_not_mem '=' s hwf]
      rfl
    · cases b <;> decide
    · cases b <;> decide
    · show MetadataValue.from_str ("token_standard".data ++ '=' :: s) =
        .ok (.TokenStandard s)
      simp only [MetadataValue.from_str,
        splitChar_append '=' "token_standard".data s (by decide),
        splitChar_not_mem '=' s hwf]
      rfl
    · show MetadataValue.from_str ("collection_parent".data ++ '=' :: s) =
        .ok (.CollectionParent s)
      simp only [MetadataValue.from_str,
        splitChar_append '=' "collection_parent".data s (by decide),
        splitChar_not_mem '=' s hwf]
      rfl
    · cases b <;> decide
    · show MetadataValue.from_str ("rule_set".data ++ '=' :: s) =
        .ok (.RuleSet s)
      simp only [MetadataValue.from_str,
        splitChar_append '=' "rule_set".data s (by decide),
        splitChar_not_mem '=' s hwf]
      rfl
  exact ⟨main, by rw [main]; rfl⟩

/-- C10 counterexample: "sfbp=007" is accepted by the documented grammar's
parser (Rust u16 parsing allows leading zeros) but renders back as
"sfbp=7", so from_str followed by to_string is not the identity on every
syntactically valid string. -/
theorem metadata_value_roundtrip_counterexample :
    MetadataValue.from_str "sfbp=007".data = .ok (.SellerFeeBasisPoints 7)
    ∧ (MetadataValue.from_str "sfbp=007".data).map MetadataValue.toChars ≠
      .ok "sfbp=007".data := by
  refine ⟨by decide, by decide⟩

/-- C10 witness: the canonical round trip at a concrete creators value. -/
theorem metadata_value_roundtrip_witness :
    MetadataValue.from_str
        (MetadataValue.toChars (.Creators
          [{ address := .named "Addr1".data, verified := true, share := 50 }])) =
      .ok (.Creators
        [{ address := .named "Addr1".data, verified := true, share := 50 }])
    ∧ (MetadataValue.from_str
        (MetadataValue.toChars (.Creators
          [{ address := .named "Addr1".data, verified := true, share := 50 }]))).map
        MetadataValue.toChars =
      .ok (MetadataValue.toChars (.Creators
        [{ address := .named "Addr1".data, verified := true, share := 50 }])) :=
  metadata_value_roundtrip
    (.Creators [{ address := .named "Addr1".data, verified := true, share := 50 }])
    (by unfold wfMetadataValue; decide)

end Metaboss
